import Mathlib

/-!
# Verification of the Gaseous handshake-container library

Shallow embedding of the Go sources of `v2Gas/Go` (files `g_common.go`,
`g_client.go`, `g_server.go` and the unnamed parts) and proofs about them.

Go byte slices are modelled as `List Nat` (each element a byte value),
Go strings as byte lists (`GoStr`), and Go's runtime panic on an
out-of-bounds slice access as the distinguished error `GErr.oob`:
every slice expression of the source is translated through the guarded
primitives `idx`, `gslice` and `gsliceFrom`, so a theorem stating that a
function never returns `GErr.oob` is a genuine memory-safety statement.

External collaborators (the compression codecs, the JSON encoder, the
uTLS fingerprint engine) are passed in explicitly as the `ExtFuns`
record of total functions returning `Except String`-values, mirroring
the Go library calls that return `(value, error)` pairs.
-/

/-- Go `[]byte`, one `Nat` per byte. -/
abbrev Bytes := List Nat

/-- Go `string` values are byte strings; `""` is `[]`. -/
abbrev GoStr := List Nat

/-- Big-endian 16-bit read, `binary.BigEndian.Uint16`. -/
def be16 (b0 b1 : Nat) : Nat := b0 * 256 + b1

/-- Big-endian 32-bit read, `binary.BigEndian.Uint32`. -/
def be32 (b0 b1 b2 b3 : Nat) : Nat :=
  ((b0 * 256 + b1) * 256 + b2) * 256 + b3

/-- Big-endian 16-bit write, `binary.BigEndian.PutUint16`. -/
def u16be (v : Nat) : Bytes := [v / 256 % 256, v % 256]

/-- Big-endian 32-bit write, `binary.BigEndian.PutUint32`. -/
def u32be (v : Nat) : Bytes :=
  [v / 16777216 % 256, v / 65536 % 256, v / 256 % 256, v % 256]

/-- Errors of the library.  The six named constructors are the sentinel
values `ErrGaseousMagic` … `ErrGaseousType` of `g_common.go`; `goError`
is an `errors.New`/`errorString` value with its message; `extError` is
an error propagated unchanged from an external library call; `oob`
models a Go runtime panic caused by an out-of-bounds slice access
(no error value of the source maps to it). -/
inductive GErr where
  | oob : GErr
  | trunc : GErr
  | magic : GErr
  | version : GErr
  | typ : GErr
  | algo : GErr
  | template : GErr
  | goError (msg : String) : GErr
  | extError (msg : String) : GErr
deriving DecidableEq, Repr

/-- Go indexing `s[i]`: panics (`GErr.oob`) when out of bounds. -/
def idx (s : Bytes) (i : Nat) : Except GErr Nat :=
  match s.get? i with
  | some v => .ok v
  | none => .error .oob

/-- Go slicing `s[a:b]`: panics (`GErr.oob`) unless `a ≤ b ≤ len s`. -/
def gslice (s : Bytes) (a b : Nat) : Except GErr Bytes :=
  if a ≤ b ∧ b ≤ s.length then .ok ((s.drop a).take (b - a)) else .error .oob

/-- Go slicing `s[a:]`: panics (`GErr.oob`) unless `a ≤ len s`. -/
def gsliceFrom (s : Bytes) (a : Nat) : Except GErr Bytes :=
  if a ≤ s.length then .ok (s.drop a) else .error .oob

/-- Lift an error of an external library call (`GErr.extError`). -/
def liftE {α : Type} : Except String α → Except GErr α
  | .ok v => .ok v
  | .error e => .error (.extError e)

@[simp] theorem liftE_ok {α : Type} (v : α) : liftE (.ok v) = (.ok v : Except GErr α) := rfl

@[simp] theorem liftE_error {α : Type} (e : String) :
    liftE (.error e) = (.error (.extError e) : Except GErr α) := rfl

@[simp] theorem except_bind_ok {ε α β : Type} (a : α) (f : α → Except ε β) :
    (Except.ok a >>= f) = f a := rfl

@[simp] theorem except_bind_error {ε α β : Type} (e : ε) (f : α → Except ε β) :
    (Except.error e >>= f : Except ε β) = .error e := rfl

@[simp] theorem except_pure_def {ε α : Type} (a : α) :
    (pure a : Except ε α) = .ok a := rfl

@[simp] theorem except_throw_def {α : Type} (e : GErr) :
    (throw e : Except GErr α) = .error e := rfl

/-- `GaseousClientHelloParams` of `g_client.go` / `part_004`. -/
structure GaseousClientHelloParams where
  SpecType : GoStr
  SNI : GoStr
  ALPN : List GoStr
  Random : Bytes
  SessionID : Bytes
  Other : List (GoStr × Bytes)
deriving DecidableEq, Repr

/-- The observable part of a `utls.ClientHelloSpec` extension object:
an `SNIExtension`, an `ALPNExtension`, or any other extension reduced
to its type code (`ext.Type()` is all the matcher reads from it). -/
inductive SpecExt where
  | sniExt (serverName : GoStr) : SpecExt
  | alpnExt (protos : List GoStr) : SpecExt
  | otherExt (t : Nat) : SpecExt
deriving DecidableEq, Repr

/-- `ext.Type()`: `server_name` is extension 0, ALPN is extension 16. -/
def SpecExt.typeCode : SpecExt → Nat
  | .sniExt _ => 0
  | .alpnExt _ => 16
  | .otherExt t => t

/-- The part of an external `utls.ClientHelloSpec` the matcher reads. -/
structure ClientHelloSpec where
  CipherSuites : List Nat
  CompressionMethods : Bytes
  Extensions : List SpecExt
deriving DecidableEq, Repr

/-- The part of a `utls.ClientHelloMsg` (produced by the external
`chMsg.Unmarshal`) that `compareClientHelloSpec` reads; `extTypes` are
the `e.Type()` values of its extension list. -/
structure ChMsg where
  CipherSuites : List Nat
  CompressionMethods : Bytes
  Random : Bytes
  SessionId : Bytes
  extTypes : List Nat
deriving DecidableEq, Repr

/-- External collaborators: compression codecs (compress/decompress per
algorithm), the LZ4-block primitive, JSON marshalling of the fingerprint
parameters, the uTLS unmarshaller, the uTLS fingerprint database
(`allUTLSIDs`, each id with `id.Str()` and the result of
`utls.UTLSIdToSpec`, `none` when that conversion fails), and the uTLS
hello reconstruction engine. -/
structure ExtFuns where
  flateD : Bytes → Except String Bytes
  gzipD : Bytes → Except String Bytes
  brotliD : Bytes → Except String Bytes
  zstdD : Bytes → Except String Bytes
  lz4D : Bytes → Except String Bytes
  xzD : Bytes → Except String Bytes
  lz4bDecode : Nat → Bytes → Except String Bytes
  flateC : Bytes → Except String Bytes
  gzipC : Bytes → Except String Bytes
  brotliC : Bytes → Except String Bytes
  zstdC : Bytes → Except String Bytes
  lz4C : Bytes → Except String Bytes
  xzC : Bytes → Except String Bytes
  lz4CompressBlock : Bytes → Except String Bytes
  jsonMarshal : GaseousClientHelloParams → Except String Bytes
  jsonUnmarshal : Bytes → Except String GaseousClientHelloParams
  unmarshalCH : Bytes → Option ChMsg
  allIDs : List (GoStr × Option ClientHelloSpec)
  buildHello : GaseousClientHelloParams → Except String Bytes

/-- The template registry `gaseousTemplates.Templates`, a map from
template id to the template's `Serialized` bytes. -/
abbrev Registry := Nat → Option Bytes

/-- The initial (empty) registry `make(map[uint16]*HelloTemplate)`. -/
def emptyTemplates : Registry := fun _ => none

/-- `fillHelloTemplate`: append the parameters to the template skeleton. -/
def fillHelloTemplate (tmpl : Bytes) (params : Bytes) : Bytes :=
  tmpl ++ params

/-- `decompressLZ4Block` (`g_server.go`): 4-byte big-endian uncompressed
size prefix, then an LZ4 block decoded by the external `lz4block.Decode`
into a buffer of exactly that size. -/
def decompressLZ4Block (ext : ExtFuns) (data : Bytes) : Except GErr Bytes :=
  match data with
  | b0 :: b1 :: b2 :: b3 :: rest => liftE (ext.lz4bDecode (be32 b0 b1 b2 b3) rest)
  | _ => .error (.goError "lz4block: truncated input")

/-- `gaseousDecompressData` (`g_server.go:127-148`): dispatch on the
algorithm byte; the eight defined identifiers 0–7, anything else is
`ErrGaseousAlgo`. -/
def gaseousDecompressData (ext : ExtFuns) (data : Bytes) (algo : Nat) : Except GErr Bytes :=
  match algo with
  | 0 => .ok data
  | 1 => liftE (ext.flateD data)
  | 2 => liftE (ext.gzipD data)
  | 3 => liftE (ext.brotliD data)
  | 4 => liftE (ext.zstdD data)
  | 5 => liftE (ext.lz4D data)
  | 6 => liftE (ext.xzD data)
  | 7 => decompressLZ4Block ext data
  | _ => .error .algo

/-- `IsGaseousHello` (`g_server.go:226-228`). -/
def IsGaseousHello (data : Bytes) : Bool :=
  2 ≤ data.length && data.take 2 == [71, 83]

/-- Go's `if cond { return nil, err }` early-return guard: error `e`
when `c` holds, otherwise continue. -/
def errIf (c : Prop) [Decidable c] (e : GErr) : Except GErr PUnit :=
  if c then .error e else .ok PUnit.unit

@[simp] theorem errIf_pos {c : Prop} [Decidable c] {e : GErr} (h : c) :
    errIf c e = .error e := by
  simp [errIf, h]

@[simp] theorem errIf_neg {c : Prop} [Decidable c] {e : GErr} (h : ¬c) :
    errIf c e = .ok PUnit.unit := by
  simp [errIf, h]

/-- `UnpackServerHelloGaseous` (`g_server.go:85-124`).  Reads the fixed
11-byte header, validates magic, version and hello type, requires the
template id to be registered, then checks the length, decompresses and
fills the template.  `reg` is the state of the process-wide
`gaseousTemplates` registry. -/
def UnpackServerHelloGaseous (ext : ExtFuns) (reg : Registry) (data : Bytes) :
    Except GErr Bytes := do
  _ ← errIf (data.length < 11) .trunc
  let magic ← gslice data 0 2
  let ver ← idx data 2
  let algo ← idx data 3
  let helloType ← idx data 4
  let t1 ← idx data 5
  let t2 ← idx data 6
  let l1 ← idx data 7
  let l2 ← idx data 8
  let l3 ← idx data 9
  let l4 ← idx data 10
  let templId := be16 t1 t2
  let dataLen := be32 l1 l2 l3 l4
  _ ← errIf (magic ≠ [71, 83]) .magic
  _ ← errIf (ver ≠ 1) .version
  _ ← errIf (helloType ≠ 2) .typ
  match reg templId with
  | none => throw .template
  | some tmpl => do
    _ ← errIf (dataLen + 11 > data.length) .trunc
    let compressed ← gslice data 11 (11 + dataLen)
    let decompressed ← gaseousDecompressData ext compressed algo
    pure (fillHelloTemplate tmpl decompressed)

/-- `IsGaseousHello`-style tag plus `UnpackAnyGaseousHello`
(`g_server.go:231-245`): dispatch on the hello-type byte; ClientHello
unpacking on the server side is explicitly not implemented. -/
def UnpackAnyGaseousHello (ext : ExtFuns) (reg : Registry) (data : Bytes) :
    Nat × Option Bytes × Option GErr :=
  if data.length < 11 then (0, none, some .trunc)
  else
    match data.get? 4 with
    | none => (0, none, some .oob)
    | some helloType =>
      match helloType with
      | 1 => (1, none, some (.goError "not implemented: ClientHello unpack on server side"))
      | 2 =>
        match UnpackServerHelloGaseous ext reg data with
        | .ok hello => (2, some hello, none)
        | .error e => (2, none, some e)
      | t => (t, none, some .typ)

namespace GClient

/-- `UnpackClientHelloGaseous` of `g_client.go:241-305`.  After the
1-byte record marker is stripped, the header is validated; a frame with
`templateId = 0xFFFF` is flate-decompressed (the algo byte is not
consulted), JSON-decoded and rebuilt through the uTLS engine; any other
template id dispatches on the algo byte (only algorithms 0–4 are
handled here) and then fills the registered template. -/
def UnpackClientHelloGaseous (ext : ExtFuns) (reg : Registry) (data₀ : Bytes) :
    Except GErr Bytes := do
  _ ← errIf (data₀.length < 11 + 1) .trunc
  let data ← gsliceFrom data₀ 1
  let magic ← gslice data 0 2
  let ver ← idx data 2
  let algo ← idx data 3
  let helloType ← idx data 4
  let t1 ← idx data 5
  let t2 ← idx data 6
  let l1 ← idx data 7
  let l2 ← idx data 8
  let l3 ← idx data 9
  let l4 ← idx data 10
  let templId := be16 t1 t2
  let dataLen := be32 l1 l2 l3 l4
  _ ← errIf (magic ≠ [71, 83]) .magic
  _ ← errIf (ver ≠ 1) .version
  _ ← errIf (helloType ≠ 1) .typ
  _ ← errIf (dataLen + 11 > data.length) .trunc
  let compressed ← gslice data 11 (11 + dataLen)
  if templId = 65535 then
    let plain ← liftE (ext.flateD compressed)
    let params ← liftE (ext.jsonUnmarshal plain)
    liftE (ext.buildHello params)
  else
    let plain ← (match algo with
      | 0 => pure compressed
      | 1 => liftE (ext.flateD compressed)
      | 2 => liftE (ext.gzipD compressed)
      | 3 => liftE (ext.brotliD compressed)
      | 4 => liftE (ext.zstdD compressed)
      | _ => throw .algo)
    match reg templId with
    | none => throw .template
    | some tmpl => pure (fillHelloTemplate tmpl plain)

end GClient

namespace P4

/-- `UnpackClientHelloGaseous` of `part_004:347-411`.  Same header
handling as the `g_client.go` variant, but the algorithm dispatch covers
all eight identifiers and runs before the `0xFFFF` fingerprint branch. -/
def UnpackClientHelloGaseous (ext : ExtFuns) (reg : Registry) (data₀ : Bytes) :
    Except GErr Bytes := do
  _ ← errIf (data₀.length < 11 + 1) .trunc
  let data ← gsliceFrom data₀ 1
  let magic ← gslice data 0 2
  let ver ← idx data 2
  let algo ← idx data 3
  let helloType ← idx data 4
  let t1 ← idx data 5
  let t2 ← idx data 6
  let l1 ← idx data 7
  let l2 ← idx data 8
  let l3 ← idx data 9
  let l4 ← idx data 10
  let templId := be16 t1 t2
  let dataLen := be32 l1 l2 l3 l4
  _ ← errIf (magic ≠ [71, 83]) .magic
  _ ← errIf (ver ≠ 1) .version
  _ ← errIf (helloType ≠ 1) .typ
  _ ← errIf (dataLen + 11 > data.length) .trunc
  let compressed ← gslice data 11 (11 + dataLen)
  let plain ← (match algo with
    | 0 => pure compressed
    | 1 => liftE (ext.flateD compressed)
    | 2 => liftE (ext.gzipD compressed)
    | 3 => liftE (ext.brotliD compressed)
    | 4 => liftE (ext.zstdD compressed)
    | 5 => liftE (ext.lz4D compressed)
    | 6 => liftE (ext.xzD compressed)
    | 7 => decompressLZ4Block ext compressed
    | _ => throw .algo)
  if templId = 65535 then
    let params ← liftE (ext.jsonUnmarshal plain)
    liftE (ext.buildHello params)
  else
    match reg templId with
    | none => throw .template
    | some tmpl => pure (fillHelloTemplate tmpl plain)

end P4

/-- Count of equal pairs, `for x in xs { for y in ys { if x == y … } }`. -/
def overlapCount (xs ys : List Nat) : Nat :=
  xs.foldl (fun acc x => acc + ys.foldl (fun a y => if x = y then a + 1 else a) 0) 0

/-- Count of equal string pairs (ALPN overlap loops). -/
def overlapGoStr (xs ys : List GoStr) : Nat :=
  xs.foldl (fun acc x => acc + ys.foldl (fun a y => if x = y then a + 1 else a) 0) 0

/-- Insert into an ascending list (helper for `sortNat`). -/
def insortNat (x : Nat) : List Nat → List Nat
  | [] => [x]
  | y :: ys => if x ≤ y then x :: y :: ys else y :: insortNat x ys

/-- Ascending sort of a `[]uint16` list, as `sort.Slice(…, less)` does. -/
def sortNat (l : List Nat) : List Nat := l.foldr insortNat []

/-- Merge walk over two ascending lists counting common elements
(`g_client.go:141-153`). -/
def commonCount : List Nat → List Nat → Nat
  | x :: xs, y :: ys =>
    if x = y then 1 + commonCount xs ys
    else if x < y then commonCount xs (y :: ys)
    else commonCount (x :: xs) ys
  | _, _ => 0
termination_by a b => a.length + b.length

/-- Concatenation of the `AlpnProtocols` of every `ALPNExtension` of a
spec (`g_client.go:107-112`). -/
def specALPNProtos (spec : ClientHelloSpec) : List GoStr :=
  spec.Extensions.foldl
    (fun acc e => match e with | .alpnExt ps => acc ++ ps | _ => acc) []

/-- `compareClientHelloSpec` (`g_client.go:87-163`): the scoring of one
uTLS spec against an unmarshalled ClientHello. -/
def compareClientHelloSpec (msg : ChMsg) (spec : ClientHelloSpec)
    (sni : GoStr) (alpn : List GoStr) : Nat :=
  let s1 := if msg.CipherSuites ≠ [] ∧ spec.CipherSuites ≠ [] then
    overlapCount msg.CipherSuites spec.CipherSuites * 3 else 0
  let s2 := if msg.CompressionMethods ≠ [] ∧ spec.CompressionMethods ≠ [] ∧
      msg.CompressionMethods = spec.CompressionMethods then 8 else 0
  let s3 := if alpn ≠ [] ∧ spec.Extensions ≠ [] then
    overlapGoStr alpn (specALPNProtos spec) * 4 else 0
  let s4 := if sni ≠ [] then
    spec.Extensions.foldl
      (fun acc e => match e with
        | .sniExt name => if name = sni then acc + 10 else acc
        | _ => acc) 0
    else 0
  let s5 := commonCount (sortNat msg.extTypes)
    (sortNat (spec.Extensions.map SpecExt.typeCode)) * 2
  let s6 := if msg.Random.length = 32 then 2 else 0
  let s7 := if msg.SessionId.length = 32 ∨ msg.SessionId.length = 0 then 2 else 0
  s1 + s2 + s3 + s4 + s5 + s6 + s7

/-- The best-match tracking loop shared by both matcher variants: walk
the fingerprint database, skip ids whose `UTLSIdToSpec` failed, and on a
strictly higher score record the score, the id string and freshly built
parameters.  State is `(bestScore, bestMatch, params)`. -/
def bestLoop (score : ClientHelloSpec → Nat) (mkP : GoStr → GaseousClientHelloParams) :
    List (GoStr × Option ClientHelloSpec) →
    Nat × GoStr × Option GaseousClientHelloParams →
    Nat × GoStr × Option GaseousClientHelloParams
  | [], st => st
  | (_, none) :: rest, st => bestLoop score mkP rest st
  | (idStr, some sp) :: rest, (bs, bm, pr) =>
    if score sp > bs then bestLoop score mkP rest (score sp, idStr, some (mkP idStr))
    else bestLoop score mkP rest (bs, bm, pr)

namespace GClient

/-- `matchUTLSClientHello` (`g_client.go:52-85`): unmarshal through
uTLS, score every database entry, and accept the best match only when
its score reaches the threshold 50. -/
def matchUTLSClientHello (ext : ExtFuns) (clientHelloBytes : Bytes)
    (sni : GoStr) (alpn : List GoStr) : Option (GoStr × GaseousClientHelloParams) :=
  match ext.unmarshalCH clientHelloBytes with
  | none => none
  | some msg =>
    let r := bestLoop (fun sp => compareClientHelloSpec msg sp sni alpn)
      (fun idStr =>
        { SpecType := idStr, SNI := sni, ALPN := alpn,
          Random := msg.Random, SessionID := msg.SessionId, Other := [] })
      ext.allIDs (0, [], none)
    if 50 ≤ r.1 ∧ r.2.1 ≠ [] then r.2.2.map (fun p => (r.2.1, p)) else none

end GClient

/-- The 11-byte Gaseous header followed by the payload, prefixed with
the `recordTypeGaseousHello` marker `0xFE`, exactly as both packers
build it. -/
def mkFrame (algo helloType templId : Nat) (comp : Bytes) : Bytes :=
  254 :: (71 :: 83 :: 1 :: algo :: helloType :: (u16be templId ++ u32be comp.length)) ++ comp

namespace GClient

/-- `PackClientHelloGaseous` (`g_client.go:165-201`): on a fingerprint
match, JSON-encode the parameters and flate-compress them into a
`templateId = 0xFFFF` frame; otherwise brotli-compress the raw bytes
into a `templateId = 0` frame.  No fallback over other algorithms. -/
def PackClientHelloGaseous (ext : ExtFuns) (clientHelloBytes : Bytes)
    (sni : GoStr) (alpn : List GoStr) : Except GErr Bytes :=
  match matchUTLSClientHello ext clientHelloBytes sni alpn with
  | some (_, params) => do
    let paramBytes ← liftE (ext.jsonMarshal params)
    let compressed ← liftE (ext.flateC paramBytes)
    pure (mkFrame 1 1 65535 compressed)
  | none => do
    let compressed ← liftE (ext.brotliC clientHelloBytes)
    pure (mkFrame 3 1 0 compressed)

end GClient

/-- `compressLZ4Block` (`part_001`): 4-byte big-endian length prefix of
the uncompressed input followed by the raw LZ4 block produced by the
external `lz4.CompressBlock`. -/
def compressLZ4Block (ext : ExtFuns) (data : Bytes) : Except String Bytes :=
  match ext.lz4CompressBlock data with
  | .ok blk => .ok (u32be data.length ++ blk)
  | .error e => .error e

/-- The fixed preference order of `compressFuncs` in
`PackClientHelloGaseous` (`part_004:296-308`): algorithm id paired with
its compressor. -/
def compressFuncs (ext : ExtFuns) : List (Nat × (Bytes → Except String Bytes)) :=
  [(1, ext.flateC), (2, ext.gzipC), (3, ext.brotliC), (4, ext.zstdC),
   (5, ext.lz4C), (6, ext.xzC), (7, compressLZ4Block ext)]

/-- The first-success compression loop of `part_004`'s packer: return
the algorithm id and output of the first compressor that succeeds,
`none` when every one fails. -/
def tryCompress (fns : List (Nat × (Bytes → Except String Bytes))) (payload : Bytes) :
    Option (Nat × Bytes) :=
  match fns with
  | [] => none
  | (a, f) :: rest =>
    match f payload with
    | .ok c => some (a, c)
    | .error _ => tryCompress rest payload

/-- `ParsedClientHello` (`part_004:39-48`); the `Extensions` Go map is
an association list with unique keys. -/
structure ParsedClientHello where
  Version : Nat
  Random : Bytes
  SessionID : Bytes
  CipherSuites : List Nat
  CompressionMethods : Bytes
  SNI : GoStr
  ALPN : List GoStr
  Extensions : List (Nat × Bytes)
deriving DecidableEq, Repr

/-- Go map assignment `m[k] = v`: replace the binding if present,
otherwise add it. -/
def mapSet (m : List (Nat × Bytes)) (k : Nat) (v : Bytes) : List (Nat × Bytes) :=
  match m with
  | [] => [(k, v)]
  | (k', v') :: rest => if k = k' then (k, v) :: rest else (k', v') :: mapSet rest k v

/-- Big-endian 16-bit values of consecutive byte pairs (the cipher-suite
read loop of `part_004:113-117`). -/
def toPairsBE : Bytes → List Nat
  | a :: b :: rest => be16 a b :: toPairsBE rest
  | _ => []

/-- The scan loop of `parseSNI` (`part_004:170-179`).  `fuel` only bounds
the iteration count for Lean; it is checked after the loop condition, so
exhausting it (`GErr.oob`) is proved unreachable for the initial fuel. -/
def parseSNIList (data : Bytes) (listLen : Nat) : Nat → Nat → Except GErr (Option GoStr)
  | i, 0 =>
    if i + 3 ≤ data.length ∧ i + listLen ≤ data.length then .error .oob
    else pure none
  | i, fuel + 1 =>
    if i + 3 ≤ data.length ∧ i + listLen ≤ data.length then do
      let typ ← idx data i
      let n1 ← idx data (i + 1)
      let n2 ← idx data (i + 2)
      let nameLen := be16 n1 n2
      if typ = 0 ∧ i + 3 + nameLen ≤ data.length then do
        let name ← gslice data (i + 3) (i + 3 + nameLen)
        pure (some name)
      else
        parseSNIList data listLen (i + 3 + nameLen) fuel
    else pure none

/-- `parseSNI` (`part_004:164-180`): first `server_name` entry with name
type 0, if any. -/
def parseSNI (data : Bytes) : Except GErr (Option GoStr) :=
  if data.length < 2 then pure none
  else do
    let b0 ← idx data 0
    let b1 ← idx data 1
    parseSNIList data (be16 b0 b1) 2 (data.length + 1)

/-- The scan loop of `parseALPN` (`part_004:188-199`). -/
def parseALPNList (data : Bytes) (alpnLen : Nat) :
    Nat → Nat → List GoStr → Except GErr (List GoStr)
  | li, 0, acc =>
    if li < data.length ∧ li - 2 < alpnLen then .error .oob
    else pure acc
  | li, fuel + 1, acc =>
    if li < data.length ∧ li - 2 < alpnLen then
      if data.length ≤ li then pure acc
      else do
        let l ← idx data li
        if li + 1 + l > data.length then pure acc
        else do
          let proto ← gslice data (li + 1) (li + 1 + l)
          parseALPNList data alpnLen (li + 1 + l) fuel (acc ++ [proto])
    else pure acc

/-- `parseALPN` (`part_004:182-200`): the decoded protocol names, in
order. -/
def parseALPN (data : Bytes) : Except GErr (List GoStr) :=
  if data.length < 2 then pure []
  else do
    let b0 ← idx data 0
    let b1 ← idx data 1
    parseALPNList data (be16 b0 b1) 2 (data.length + 1) []

/-- The `server_name` branch inside the extension loop
(`part_004:152-154`): set `out.SNI` when `parseSNI` finds a name. -/
def setSNIIfFound (bodyB : Bytes) (out1 : ParsedClientHello) :
    Except GErr ParsedClientHello := do
  match (← parseSNI bodyB) with
  | some s => pure { out1 with SNI := s }
  | none => pure out1

/-- The ALPN branch inside the extension loop (`part_004:155-157`):
append the decoded protocol names to `out.ALPN`. -/
def appendALPN (bodyB : Bytes) (out2 : ParsedClientHello) :
    Except GErr ParsedClientHello := do
  let ps ← parseALPN bodyB
  pure { out2 with ALPN := out2.ALPN ++ ps }

/-- The extension-record loop of `parseClientHello` (`part_004:142-160`):
read `(type, len)` headers while four bytes remain; a record whose body
would overrun the block stops the loop without error. -/
def parseExtLoop (exts : Bytes) : Nat → Nat → ParsedClientHello → Except GErr ParsedClientHello
  | ei, 0, out =>
    if ei + 4 ≤ exts.length then .error .oob
    else pure out
  | ei, fuel + 1, out =>
    if ei + 4 ≤ exts.length then do
      let t1 ← idx exts ei
      let t2 ← idx exts (ei + 1)
      let l1 ← idx exts (ei + 2)
      let l2 ← idx exts (ei + 3)
      let extType := be16 t1 t2
      let extL := be16 l1 l2
      if ei + 4 + extL > exts.length then pure out
      else do
        let bodyB ← gslice exts (ei + 4) (ei + 4 + extL)
        let out1 := { out with Extensions := mapSet out.Extensions extType bodyB }
        let out2 ← (if extType = 0 then setSNIIfFound bodyB out1 else pure out1)
        let out3 ← (if extType = 16 then appendALPN bodyB out2 else pure out2)
        parseExtLoop exts (ei + 4 + extL) fuel out3
    else pure out

/-- `parseClientHello` (`part_004:50-162`): skip a TLS record header if
present, check the handshake header, then read version, random, session
id, cipher suites, compression methods and the extensions block, each
length bounds-checked before the slice is taken. -/
def parseClientHello (data : Bytes) : Except GErr ParsedClientHello := do
  _ ← errIf (data.length < 9) (.goError "too short")
  let b0 ← idx data 0
  let offset ← (if b0 = 22 ∧ 5 < data.length then do
      let b1 ← idx data 1
      let b2 ← idx data 2
      if b1 = 3 ∧ 1 ≤ b2 ∧ b2 ≤ 4 then do
        let r1 ← idx data 3
        let r2 ← idx data 4
        _ ← errIf (data.length < 5 + be16 r1 r2) (.goError "truncated TLS record")
        pure 5
      else pure 0
    else pure 0)
  let hs ← gsliceFrom data offset
  _ ← errIf (hs.length < 4) (.goError "truncated handshake")
  let h0 ← idx hs 0
  _ ← errIf (h0 ≠ 1) (.goError "not clienthello")
  let h1 ← idx hs 1
  let h2 ← idx hs 2
  let h3 ← idx hs 3
  let hsLen := h1 * 65536 + h2 * 256 + h3
  _ ← errIf (hs.length - 4 < hsLen) (.goError "truncated handshake body")
  let body ← gslice hs 4 (4 + hsLen)
  _ ← errIf (body.length < 2) (.goError "truncated version")
  let v0 ← idx body 0
  let v1 ← idx body 1
  let s1 ← gsliceFrom body 2
  _ ← errIf (s1.length < 32) (.goError "truncated random")
  let random ← gslice body 2 34
  let s2 ← gsliceFrom body 34
  _ ← errIf (s2.length < 1) (.goError "truncated sessionid len")
  let sidLen ← idx body 34
  let s3 ← gsliceFrom body 35
  _ ← errIf (s3.length < sidLen) (.goError "truncated sessionid")
  let sessionId ← gslice body 35 (35 + sidLen)
  let i1 := 35 + sidLen
  let s4 ← gsliceFrom body i1
  _ ← errIf (s4.length < 2) (.goError "truncated ciphersuites len")
  let c0 ← idx body i1
  let c1 ← idx body (i1 + 1)
  let csLen := be16 c0 c1
  let i2 := i1 + 2
  let s5 ← gsliceFrom body i2
  _ ← errIf (s5.length < csLen ∨ csLen % 2 ≠ 0) (.goError "truncated/invalid ciphersuites")
  let csBytes ← gslice body i2 (i2 + csLen)
  let i3 := i2 + csLen
  let s6 ← gsliceFrom body i3
  _ ← errIf (s6.length < 1) (.goError "truncated compression methods len")
  let compLen ← idx body i3
  let i4 := i3 + 1
  let s7 ← gsliceFrom body i4
  _ ← errIf (s7.length < compLen) (.goError "truncated compression methods")
  let compressionMethods ← gslice body i4 (i4 + compLen)
  let i5 := i4 + compLen
  let out0 : ParsedClientHello :=
    { Version := be16 v0 v1, Random := random, SessionID := sessionId,
      CipherSuites := toPairsBE csBytes, CompressionMethods := compressionMethods,
      SNI := [], ALPN := [], Extensions := [] }
  if i5 = body.length then pure out0
  else do
    let s8 ← gsliceFrom body i5
    _ ← errIf (s8.length < 2) (.goError "truncated extensions len")
    let e0 ← idx body i5
    let e1 ← idx body (i5 + 1)
    let extLen := be16 e0 e1
    let i6 := i5 + 2
    let s9 ← gsliceFrom body i6
    _ ← errIf (s9.length < extLen) (.goError "truncated extensions body")
    let exts ← gslice body i6 (i6 + extLen)
    parseExtLoop exts 0 (exts.length + 1) out0

/-- Count of positionally equal cipher suites (`part_004:222-226`). -/
def posMatchCount : List Nat → List Nat → Nat
  | x :: xs, y :: ys => (if x = y then 1 else 0) + posMatchCount xs ys
  | _, _ => 0

namespace P4

/-- The per-spec score of `part_004:217-270`: positional cipher-suite
matches ×4, +8 for equal compression methods, ALPN pair overlap ×4, +3
when the client sent an SNI and the spec has an `SNIExtension`. -/
def p4Score (parsed : ParsedClientHello) (spec : ClientHelloSpec) : Nat :=
  let s1 := if parsed.CipherSuites ≠ [] ∧ spec.CipherSuites ≠ [] then
    posMatchCount parsed.CipherSuites spec.CipherSuites * 4 else 0
  let s2 := if parsed.CompressionMethods ≠ [] ∧ spec.CompressionMethods ≠ [] ∧
      parsed.CompressionMethods = spec.CompressionMethods then 8 else 0
  let s3 := if parsed.ALPN ≠ [] then
    (spec.Extensions.foldl (fun acc e => match e with
      | .alpnExt ps => acc + overlapGoStr parsed.ALPN ps
      | _ => acc) 0) * 4 else 0
  let s4 := if parsed.SNI ≠ [] ∧
      spec.Extensions.any (fun e => match e with | .sniExt _ => true | _ => false) then 3 else 0
  s1 + s2 + s3 + s4

/-- `matchUTLSClientHello` of `part_004:203-288`: parse with
`parseClientHello`, score every database entry, accept the best match
only when its score reaches the threshold 10. -/
def matchUTLSClientHello (ext : ExtFuns) (clientHelloBytes : Bytes) :
    Option (GoStr × GaseousClientHelloParams) :=
  match parseClientHello clientHelloBytes with
  | .error _ => none
  | .ok parsed =>
    let r := bestLoop (p4Score parsed)
      (fun idStr =>
        { SpecType := idStr, SNI := parsed.SNI, ALPN := parsed.ALPN,
          Random := parsed.Random, SessionID := parsed.SessionID, Other := [] })
      ext.allIDs (0, [], none)
    if 10 ≤ r.1 ∧ r.2.1 ≠ [] then r.2.2.map (fun p => (r.2.1, p)) else none

/-- `PackClientHelloGaseous` of `part_004:291-345`: fingerprint match
(then JSON-encode) or raw bytes, followed by the first-success
compression fallback over `compressFuncs`; an aggregate
`all compression failed` error only when every algorithm fails. -/
def PackClientHelloGaseous (ext : ExtFuns) (clientHelloBytes : Bytes)
    (_sni : GoStr) (_alpn : List GoStr) : Except GErr Bytes :=
  match matchUTLSClientHello ext clientHelloBytes with
  | some (_, params) =>
    match ext.jsonMarshal params with
    | .error e => .error (.extError e)
    | .ok paramBytes =>
      match tryCompress (compressFuncs ext) paramBytes with
      | some (a, comp) => .ok (mkFrame a 1 65535 comp)
      | none => .error (.goError "all compression failed")
  | none =>
    match tryCompress (compressFuncs ext) clientHelloBytes with
    | some (a, comp) => .ok (mkFrame a 1 0 comp)
    | none => .error (.goError "all compression failed")

end P4

instance {ε α : Type} [DecidableEq ε] [DecidableEq α] : DecidableEq (Except ε α) := fun x y =>
  match x, y with
  | .ok a, .ok b =>
    if h : a = b then .isTrue (by rw [h]) else .isFalse (by simp [h])
  | .error a, .error b =>
    if h : a = b then .isTrue (by rw [h]) else .isFalse (by simp [h])
  | .ok _, .error _ => .isFalse (by simp)
  | .error _, .ok _ => .isFalse (by simp)

/-- A concrete environment of external functions used for evaluating the
library on closed inputs: every codec call fails with the error message
"unavailable", the uTLS unmarshaller rejects everything, and the
fingerprint database is empty. -/
def trivialExt : ExtFuns where
  flateD := fun _ => .error "unavailable"
  gzipD := fun _ => .error "unavailable"
  brotliD := fun _ => .error "unavailable"
  zstdD := fun _ => .error "unavailable"
  lz4D := fun _ => .error "unavailable"
  xzD := fun _ => .error "unavailable"
  lz4bDecode := fun _ _ => .error "unavailable"
  flateC := fun _ => .error "unavailable"
  gzipC := fun _ => .error "unavailable"
  brotliC := fun _ => .error "unavailable"
  zstdC := fun _ => .error "unavailable"
  lz4C := fun _ => .error "unavailable"
  xzC := fun _ => .error "unavailable"
  lz4CompressBlock := fun _ => .error "unavailable"
  jsonMarshal := fun _ => .ok []
  jsonUnmarshal := fun _ => .error "unavailable"
  unmarshalCH := fun _ => none
  allIDs := []
  buildHello := fun _ => .error "unavailable"

/-- C1: raw mode does not exist in the code.  A well-formed frame with
`templateId = 0` and `algo = None` carrying payload `[1,2,3]` is sent to
the template-registry lookup by every unpack variant (`g_client.go:300`,
`part_004:406`, `g_server.go:106`): with the initial (empty) registry the
result is `ErrGaseousTemplate`, not the payload bytes, although the
repository's own SPEC.md defines `templateId = 0` as raw passthrough. -/
theorem c1_raw_templateId_hits_registry :
    GClient.UnpackClientHelloGaseous trivialExt emptyTemplates
      (mkFrame 0 1 0 [1, 2, 3]) = .error .template ∧
    GClient.UnpackClientHelloGaseous trivialExt emptyTemplates
      (mkFrame 0 1 0 [1, 2, 3]) ≠ .ok [1, 2, 3] ∧
    P4.UnpackClientHelloGaseous trivialExt emptyTemplates
      (mkFrame 0 1 0 [1, 2, 3]) = .error .template ∧
    UnpackServerHelloGaseous trivialExt emptyTemplates
      [71, 83, 1, 0, 2, 0, 0, 0, 0, 0, 3, 1, 2, 3] = .error .template := by
  decide

/-- C2: the server-side algorithm dispatch and the `part_004` client
unpack reject the unknown algorithm id 99 with `ErrGaseousAlgo`, but the
`g_client.go` unpack in fingerprint mode (`templateId = 0xFFFF`) never
consults the algo byte: on the same frame it attempts flate
decompression and surfaces the codec's error instead of
`ErrGaseousAlgo`. -/
theorem c2_fingerprint_mode_skips_algo_check :
    (∀ (ext : ExtFuns) (data : Bytes) (algo : Nat), 8 ≤ algo →
      gaseousDecompressData ext data algo = .error .algo) ∧
    P4.UnpackClientHelloGaseous trivialExt emptyTemplates
      [254, 71, 83, 1, 99, 1, 255, 255, 0, 0, 0, 1, 0] = .error .algo ∧
    GClient.UnpackClientHelloGaseous trivialExt emptyTemplates
      [254, 71, 83, 1, 99, 1, 255, 255, 0, 0, 0, 1, 0] = .error (.extError "unavailable") ∧
    GClient.UnpackClientHelloGaseous trivialExt emptyTemplates
      [254, 71, 83, 1, 99, 1, 255, 255, 0, 0, 0, 1, 0] ≠ .error .algo := by
  refine ⟨?_, by decide, by decide, by decide⟩
  intro ext data algo h
  obtain ⟨n, rfl⟩ : ∃ n, algo = n + 8 := ⟨algo - 8, by omega⟩
  rfl

/-- C2 witness: the universally quantified first conjunct applied at a
concrete unknown algorithm id. -/
theorem c2_fingerprint_mode_skips_algo_check_witness :
    gaseousDecompressData trivialExt [] 99 = .error .algo :=
  c2_fingerprint_mode_skips_algo_check.1 trivialExt [] 99 (by decide)

/-- C3 counterexample: an input for `UnpackServerHelloGaseous` that
passes the magic, version and hello-type checks and whose `dataLen`
(99) plus 11 exceeds the 11 available bytes, yet — the template id 7
being unregistered — unpacking returns `ErrGaseousTemplate`, not
`ErrGaseousTrunc`: the registry lookup precedes the length check. -/
theorem c3_truncation_counterexample :
    UnpackServerHelloGaseous trivialExt emptyTemplates
      [71, 83, 1, 0, 2, 0, 7, 0, 0, 0, 99] = .error .template ∧
    UnpackServerHelloGaseous trivialExt emptyTemplates
      [71, 83, 1, 0, 2, 0, 7, 0, 0, 0, 99] ≠ .error .trunc := by
  decide

/-- C3 (amended): for every input passing the magic, version and
hello-type checks whose `dataLen + 11` exceeds the available bytes, the
client unpack variants return `ErrGaseousTrunc`; the server unpack does
so provided its template id is registered, and returns
`ErrGaseousTemplate` when it is not. -/
theorem c3_truncation (ext : ExtFuns) (reg : Registry)
    (b0 a t1 t2 l1 l2 l3 l4 : Nat) (rest : Bytes)
    (hlen : rest.length < be32 l1 l2 l3 l4) :
    GClient.UnpackClientHelloGaseous ext reg
      (b0::71::83::1::a::1::t1::t2::l1::l2::l3::l4::rest) = .error .trunc ∧
    P4.UnpackClientHelloGaseous ext reg
      (b0::71::83::1::a::1::t1::t2::l1::l2::l3::l4::rest) = .error .trunc ∧
    (∀ tmpl, reg (be16 t1 t2) = some tmpl →
      UnpackServerHelloGaseous ext reg
        (71::83::1::a::2::t1::t2::l1::l2::l3::l4::rest) = .error .trunc) ∧
    (reg (be16 t1 t2) = none →
      UnpackServerHelloGaseous ext reg
        (71::83::1::a::2::t1::t2::l1::l2::l3::l4::rest) = .error .template) := by
  refine ⟨?_, ?_, ?_, ?_⟩
  · simp only [GClient.UnpackClientHelloGaseous]
    simp [gslice, gsliceFrom, idx, hlen]
  · simp only [P4.UnpackClientHelloGaseous]
    simp [gslice, gsliceFrom, idx, hlen]
  · intro tmpl hreg
    simp only [UnpackServerHelloGaseous]
    simp [gslice, gsliceFrom, idx, hreg, hlen]
  · intro hreg
    simp only [UnpackServerHelloGaseous]
    simp [gslice, gsliceFrom, idx, hreg]

/-- C3 witness: the amended truncation statement applied at a concrete
truncated frame (`dataLen = 9`, empty payload) against a registry where
template 7 is registered with an empty skeleton. -/
theorem c3_truncation_witness :
    GClient.UnpackClientHelloGaseous trivialExt
      (fun i => if i = 7 then some [] else none)
      [254, 71, 83, 1, 0, 1, 0, 7, 0, 0, 0, 9] = .error .trunc ∧
    UnpackServerHelloGaseous trivialExt
      (fun i => if i = 7 then some [] else none)
      [71, 83, 1, 0, 2, 0, 7, 0, 0, 0, 9] = .error .trunc := by
  have h := c3_truncation trivialExt (fun i => if i = 7 then some [] else none)
    254 0 0 7 0 0 0 9 [] (by decide)
  exact ⟨h.1, h.2.2.1 [] (by decide)⟩

set_option maxHeartbeats 2000000 in
/-- C4: header integrity of all three unpack variants, for every input
containing at least a full header (for the client variants, the
record-marker byte plus the 11 header bytes): a magic pair other than
`"GS"` gives `ErrGaseousMagic`; good magic with version ≠ 1 gives
`ErrGaseousVersion`; good magic and version with a hello-type byte
other than the one the operation expects gives `ErrGaseousType`. -/
theorem c4_header_integrity (ext : ExtFuns) (reg : Registry)
    (b0 m1 m2 v a t t1 t2 l1 l2 l3 l4 : Nat) (rest : Bytes) :
    (¬(m1 = 71 ∧ m2 = 83) →
      UnpackServerHelloGaseous ext reg
        (m1::m2::v::a::t::t1::t2::l1::l2::l3::l4::rest) = .error .magic ∧
      GClient.UnpackClientHelloGaseous ext reg
        (b0::m1::m2::v::a::t::t1::t2::l1::l2::l3::l4::rest) = .error .magic ∧
      P4.UnpackClientHelloGaseous ext reg
        (b0::m1::m2::v::a::t::t1::t2::l1::l2::l3::l4::rest) = .error .magic) ∧
    (v ≠ 1 →
      UnpackServerHelloGaseous ext reg
        (71::83::v::a::t::t1::t2::l1::l2::l3::l4::rest) = .error .version ∧
      GClient.UnpackClientHelloGaseous ext reg
        (b0::71::83::v::a::t::t1::t2::l1::l2::l3::l4::rest) = .error .version ∧
      P4.UnpackClientHelloGaseous ext reg
        (b0::71::83::v::a::t::t1::t2::l1::l2::l3::l4::rest) = .error .version) ∧
    (t ≠ 2 →
      UnpackServerHelloGaseous ext reg
        (71::83::1::a::t::t1::t2::l1::l2::l3::l4::rest) = .error .typ) ∧
    (t ≠ 1 →
      GClient.UnpackClientHelloGaseous ext reg
        (b0::71::83::1::a::t::t1::t2::l1::l2::l3::l4::rest) = .error .typ ∧
      P4.UnpackClientHelloGaseous ext reg
        (b0::71::83::1::a::t::t1::t2::l1::l2::l3::l4::rest) = .error .typ) := by
  refine ⟨fun h => ⟨?_, ?_, ?_⟩, fun h => ⟨?_, ?_, ?_⟩, fun h => ?_, fun h => ⟨?_, ?_⟩⟩
  · simp only [UnpackServerHelloGaseous]
    simp [gslice, gsliceFrom, idx, h]
  · simp only [GClient.UnpackClientHelloGaseous]
    simp [gslice, gsliceFrom, idx, h]
  · simp only [P4.UnpackClientHelloGaseous]
    simp [gslice, gsliceFrom, idx, h]
  · simp only [UnpackServerHelloGaseous]
    simp [gslice, gsliceFrom, idx, h]
  · simp only [GClient.UnpackClientHelloGaseous]
    simp [gslice, gsliceFrom, idx, h]
  · simp only [P4.UnpackClientHelloGaseous]
    simp [gslice, gsliceFrom, idx, h]
  · simp only [UnpackServerHelloGaseous]
    simp [gslice, gsliceFrom, idx, h]
  · simp only [GClient.UnpackClientHelloGaseous]
    simp [gslice, gsliceFrom, idx, h]
  · simp only [P4.UnpackClientHelloGaseous]
    simp [gslice, gsliceFrom, idx, h]

/-- C4 witness: header integrity applied at concrete corrupted headers
(magic `"XS"`, version 2, hello type 3). -/
theorem c4_header_integrity_witness :
    UnpackServerHelloGaseous trivialExt emptyTemplates
      [88, 83, 1, 0, 2, 0, 0, 0, 0, 0, 0] = .error .magic ∧
    GClient.UnpackClientHelloGaseous trivialExt emptyTemplates
      [254, 71, 83, 2, 0, 1, 0, 0, 0, 0, 0, 0] = .error .version ∧
    UnpackServerHelloGaseous trivialExt emptyTemplates
      [71, 83, 1, 0, 3, 0, 0, 0, 0, 0, 0] = .error .typ := by
  refine ⟨?_, ?_, ?_⟩
  · exact ((c4_header_integrity trivialExt emptyTemplates 254 88 83 1 0 2 0 0 0 0 0 0 [])
      |>.1 (by decide)).1
  · exact ((c4_header_integrity trivialExt emptyTemplates 254 71 83 2 0 1 0 0 0 0 0 0 [])
      |>.2.1 (by decide)).2.1
  · exact ((c4_header_integrity trivialExt emptyTemplates 254 71 83 1 0 3 0 0 0 0 0 0 [])
      |>.2.2.1 (by decide))

/-- C8: dispatch of `UnpackAnyGaseousHello` on the hello-type byte for
every input of at least header size: type 1 yields the distinct
not-implemented error (different from every sentinel error of the
library) with no reconstructed bytes; type 2 dispatches to
`UnpackServerHelloGaseous`; any other type yields `ErrGaseousType`. -/
theorem c8_unpack_any_dispatch (ext : ExtFuns) (reg : Registry) (data : Bytes)
    (hlen : 11 ≤ data.length) :
    (data.get? 4 = some 1 →
      UnpackAnyGaseousHello ext reg data =
        (1, none, some (.goError "not implemented: ClientHello unpack on server side")) ∧
      (GErr.goError "not implemented: ClientHello unpack on server side") ∉
        [GErr.trunc, GErr.magic, GErr.version, GErr.typ, GErr.algo, GErr.template]) ∧
    (data.get? 4 = some 2 →
      UnpackAnyGaseousHello ext reg data =
        (match UnpackServerHelloGaseous ext reg data with
          | .ok hello => (2, some hello, none)
          | .error e => (2, none, some e))) ∧
    (∀ t, data.get? 4 = some t → t ≠ 1 → t ≠ 2 →
      UnpackAnyGaseousHello ext reg data = (t, none, some .typ)) := by
  refine ⟨fun ht => ⟨?_, by decide⟩, fun ht => ?_, fun t ht ht1 ht2 => ?_⟩
  · simp only [UnpackAnyGaseousHello, ht]
    rw [if_neg (by omega)]
  · simp only [UnpackAnyGaseousHello, ht]
    rw [if_neg (by omega)]
  · simp only [UnpackAnyGaseousHello, ht]
    rw [if_neg (by omega)]

/-- C8 witness: the dispatch applied at concrete 11-byte inputs with
hello-type bytes 1, 2 and 9. -/
theorem c8_unpack_any_dispatch_witness :
    UnpackAnyGaseousHello trivialExt emptyTemplates [71, 83, 1, 0, 1, 0, 0, 0, 0, 0, 0] =
      (1, none, some (.goError "not implemented: ClientHello unpack on server side")) ∧
    UnpackAnyGaseousHello trivialExt emptyTemplates [71, 83, 1, 0, 2, 0, 0, 0, 0, 0, 0] =
      (2, none, some .template) ∧
    UnpackAnyGaseousHello trivialExt emptyTemplates [71, 83, 1, 0, 9, 0, 0, 0, 0, 0, 0] =
      (9, none, some .typ) := by
  refine ⟨?_, ?_, ?_⟩
  · exact ((c8_unpack_any_dispatch trivialExt emptyTemplates
      [71, 83, 1, 0, 1, 0, 0, 0, 0, 0, 0] (by decide)).1 (by decide)).1
  · have h := (c8_unpack_any_dispatch trivialExt emptyTemplates
      [71, 83, 1, 0, 2, 0, 0, 0, 0, 0, 0] (by decide)).2.1 (by decide)
    rw [h]
    decide
  · exact (c8_unpack_any_dispatch trivialExt emptyTemplates
      [71, 83, 1, 0, 9, 0, 0, 0, 0, 0, 0] (by decide)).2.2 9 (by decide)
      (by decide) (by decide)

/-- A concrete environment in which every compressor and decompressor
succeeds as the identity codec, the uTLS unmarshaller still rejects
everything and the fingerprint database is empty. -/
def okExt : ExtFuns where
  flateD := fun d => .ok d
  gzipD := fun d => .ok d
  brotliD := fun d => .ok d
  zstdD := fun d => .ok d
  lz4D := fun d => .ok d
  xzD := fun d => .ok d
  lz4bDecode := fun _ d => .ok d
  flateC := fun d => .ok d
  gzipC := fun d => .ok d
  brotliC := fun d => .ok d
  zstdC := fun d => .ok d
  lz4C := fun d => .ok d
  xzC := fun d => .ok d
  lz4CompressBlock := fun d => .ok d
  jsonMarshal := fun _ => .ok []
  jsonUnmarshal := fun _ => .error "unavailable"
  unmarshalCH := fun _ => none
  allIDs := []
  buildHello := fun _ => .error "unavailable"

/-- The first-success loop returns `none` exactly when every compressor
in the list fails. -/
theorem tryCompress_eq_none_iff (fns : List (Nat × (Bytes → Except String Bytes)))
    (payload : Bytes) :
    tryCompress fns payload = none ↔ ∀ p ∈ fns, ∃ e, p.2 payload = .error e := by
  induction fns with
  | nil => simp [tryCompress]
  | cons hd tl ih =>
    obtain ⟨a, f⟩ := hd
    simp only [tryCompress]
    cases hf : f payload with
    | ok c => simp [hf]
    | error e => simp [hf, ih]

/-- A successful first-success loop names a compressor of the list that
succeeded while every compressor listed before it failed. -/
theorem tryCompress_eq_some (fns : List (Nat × (Bytes → Except String Bytes)))
    (payload : Bytes) (a : Nat) (c : Bytes) :
    tryCompress fns payload = some (a, c) →
    ∃ pre f post, fns = pre ++ (a, f) :: post ∧ f payload = .ok c ∧
      ∀ p ∈ pre, ∃ e, p.2 payload = .error e := by
  induction fns with
  | nil => simp [tryCompress]
  | cons hd tl ih =>
    obtain ⟨a', f'⟩ := hd
    simp only [tryCompress]
    cases hf : f' payload with
    | ok c' =>
      intro h
      obtain ⟨rfl, rfl⟩ : a' = a ∧ c' = c := by
        constructor <;> [exact congrArg (·.1) (Option.some.inj h);
          exact congrArg (·.2) (Option.some.inj h)]
      exact ⟨[], f', tl, rfl, hf, by simp⟩
    | error e =>
      intro h
      obtain ⟨pre, f, post, heq, hok, hpre⟩ := ih h
      refine ⟨(a', f') :: pre, f, post, by simp [heq], hok, ?_⟩
      intro p hp
      rcases List.mem_cons.mp hp with rfl | hp
      · exact ⟨e, hf⟩
      · exact hpre p hp

/-- C7: compression fallback of `part_004`'s packer.  The first-success
loop over the fixed preference order `compressFuncs` (flate, gzip,
brotli, zstd, lz4, xz, lz4block) determines the frame's algorithm byte
and payload, and both the fingerprint and the raw path of
`PackClientHelloGaseous` report the aggregate `all compression failed`
error exactly when every algorithm failed. -/
theorem c7_compression_fallback (ext : ExtFuns) (hello : Bytes)
    (sni : GoStr) (alpn : List GoStr) :
    (∀ payload : Bytes,
      (tryCompress (compressFuncs ext) payload = none ↔
        ∀ p ∈ compressFuncs ext, ∃ e, p.2 payload = .error e) ∧
      (∀ a c, tryCompress (compressFuncs ext) payload = some (a, c) →
        ∃ pre f post, compressFuncs ext = pre ++ (a, f) :: post ∧
          f payload = .ok c ∧ ∀ p ∈ pre, ∃ e, p.2 payload = .error e)) ∧
    (P4.matchUTLSClientHello ext hello = none →
      P4.PackClientHelloGaseous ext hello sni alpn =
        (match tryCompress (compressFuncs ext) hello with
          | some (a, c) => .ok (mkFrame a 1 0 c)
          | none => .error (.goError "all compression failed"))) ∧
    (∀ s params, P4.matchUTLSClientHello ext hello = some (s, params) →
      ∀ pb, ext.jsonMarshal params = .ok pb →
        P4.PackClientHelloGaseous ext hello sni alpn =
          (match tryCompress (compressFuncs ext) pb with
            | some (a, c) => .ok (mkFrame a 1 65535 c)
            | none => .error (.goError "all compression failed"))) := by
  refine ⟨fun payload => ⟨tryCompress_eq_none_iff _ _, fun a c =>
    tryCompress_eq_some _ _ a c⟩, fun hm => ?_, fun s params hm pb hpb => ?_⟩
  · simp only [P4.PackClientHelloGaseous, hm]
  · simp only [P4.PackClientHelloGaseous, hm, hpb]

/-- C7 witness: with identity compressors the raw path packs with the
first algorithm of the preference order (flate, id 1). -/
theorem c7_compression_fallback_witness :
    P4.PackClientHelloGaseous okExt [] [] [] = .ok (mkFrame 1 1 0 []) := by
  have h := (c7_compression_fallback okExt [] [] []).2.1 (by decide)
  rw [h]
  decide

/-- C10: `IsGaseousHello` is true exactly on inputs of at least two
bytes starting with the ASCII magic `"GS"`; and since both packer
variants prepend the record marker `0xFE`, `IsGaseousHello` is false on
every frame either of them produces. -/
theorem c10_is_gaseous_hello (data : Bytes) :
    (IsGaseousHello data = true ↔
      2 ≤ data.length ∧ data.get? 0 = some 71 ∧ data.get? 1 = some 83) ∧
    (∀ (ext : ExtFuns) (hello : Bytes) (sni : GoStr) (alpn : List GoStr) (frame : Bytes),
      GClient.PackClientHelloGaseous ext hello sni alpn = .ok frame →
        IsGaseousHello frame = false) ∧
    (∀ (ext : ExtFuns) (hello : Bytes) (sni : GoStr) (alpn : List GoStr) (frame : Bytes),
      P4.PackClientHelloGaseous ext hello sni alpn = .ok frame →
        IsGaseousHello frame = false) := by
  refine ⟨?_, ?_, ?_⟩
  · match data with
    | [] => simp [IsGaseousHello]
    | [a] => simp [IsGaseousHello]
    | a :: b :: l => simp [IsGaseousHello, List.take, and_assoc]
  · intro ext hello sni alpn frame h
    cases hm : GClient.matchUTLSClientHello ext hello sni alpn with
    | some v =>
      obtain ⟨s, params⟩ := v
      simp only [GClient.PackClientHelloGaseous, hm] at h
      cases hjm : ext.jsonMarshal params with
      | error e => simp [hjm] at h
      | ok pb =>
        simp only [hjm, liftE_ok, except_bind_ok] at h
        cases hfc : ext.flateC pb with
        | error e => simp [hfc] at h
        | ok c =>
          simp only [hfc, liftE_ok, except_bind_ok, except_pure_def,
            Except.ok.injEq] at h
          subst h
          simp [IsGaseousHello, mkFrame]
    | none =>
      simp only [GClient.PackClientHelloGaseous, hm] at h
      cases hbc : ext.brotliC hello <;> simp [hbc] at h
      subst h
      simp [IsGaseousHello, mkFrame]
  · intro ext hello sni alpn frame h
    cases hm : P4.matchUTLSClientHello ext hello with
    | some v =>
      obtain ⟨s, params⟩ := v
      simp only [P4.PackClientHelloGaseous, hm] at h
      cases hjm : ext.jsonMarshal params with
      | error e => simp [hjm] at h
      | ok pb =>
        simp only [hjm] at h
        cases htc : tryCompress (compressFuncs ext) pb with
        | none => simp [htc] at h
        | some ac =>
          obtain ⟨a, c⟩ := ac
          simp only [htc] at h
          obtain rfl : mkFrame a 1 65535 c = frame := by
            simpa using h
          simp [IsGaseousHello, mkFrame]
    | none =>
      simp only [P4.PackClientHelloGaseous, hm] at h
      cases htc : tryCompress (compressFuncs ext) hello with
      | none => simp [htc] at h
      | some ac =>
        obtain ⟨a, c⟩ := ac
        simp only [htc] at h
        obtain rfl : mkFrame a 1 0 c = frame := by
          simpa using h
        simp [IsGaseousHello, mkFrame]

/-- C10 witness: concrete magic checks and concrete packed frames from
both packers (raw path, identity compressors). -/
theorem c10_is_gaseous_hello_witness :
    IsGaseousHello [71, 83] = true ∧
    IsGaseousHello (mkFrame 3 1 0 [5]) = false ∧
    IsGaseousHello (mkFrame 1 1 0 [5]) = false := by
  refine ⟨?_, ?_, ?_⟩
  · exact (c10_is_gaseous_hello [71, 83]).1.mpr (by decide)
  · exact (c10_is_gaseous_hello []).2.1 okExt [5] [] [] (mkFrame 3 1 0 [5]) (by decide)
  · exact (c10_is_gaseous_hello []).2.2 okExt [5] [] [] (mkFrame 1 1 0 [5]) (by decide)

def scoresOf (score : ClientHelloSpec → Nat) (db : List (GoStr × Option ClientHelloSpec)) :
    List Nat :=
  db.filterMap (fun e => e.2.map score)

def maxScore (score : ClientHelloSpec → Nat) (db : List (GoStr × Option ClientHelloSpec)) :
    Nat :=
  (scoresOf score db).foldl max 0

theorem le_foldl_max (l : List Nat) : ∀ b : Nat, b ≤ l.foldl max b := by
  induction l with
  | nil => simp
  | cons x xs ih =>
    intro b
    exact le_trans (Nat.le_max_left b x) (ih (max b x))

theorem bestLoop_fst (score : ClientHelloSpec → Nat) (mkP : GoStr → GaseousClientHelloParams) :
    ∀ (db : List (GoStr × Option ClientHelloSpec)) (st : Nat × GoStr × Option GaseousClientHelloParams),
    (bestLoop score mkP db st).1 = (scoresOf score db).foldl max st.1 := by
  intro db
  induction db with
  | nil => intro st; rfl
  | cons hd tl ih =>
    intro st
    obtain ⟨idStr, osp⟩ := hd
    cases osp with
    | none => simpa [bestLoop, scoresOf] using ih st
    | some sp =>
      obtain ⟨bs, bm, pr⟩ := st
      by_cases h : score sp > bs
      · rw [show scoresOf score ((idStr, some sp) :: tl) = score sp :: scoresOf score tl from rfl]
        simp only [bestLoop, if_pos h, List.foldl_cons]
        rw [ih (score sp, idStr, some (mkP idStr))]
        congr 1
        exact (Nat.max_eq_right (le_of_lt h)).symm
      · rw [show scoresOf score ((idStr, some sp) :: tl) = score sp :: scoresOf score tl from rfl]
        simp only [bestLoop, if_neg h, List.foldl_cons]
        rw [ih (bs, bm, pr)]
        congr 1
        exact (Nat.max_eq_left (Nat.le_of_not_lt h)).symm

theorem bestLoop_fix (score : ClientHelloSpec → Nat) (mkP : GoStr → GaseousClientHelloParams) :
    ∀ (db : List (GoStr × Option ClientHelloSpec)) (st : Nat × GoStr × Option GaseousClientHelloParams),
    (bestLoop score mkP db st).1 = st.1 → bestLoop score mkP db st = st := by
  intro db
  induction db with
  | nil => intro st _; rfl
  | cons hd tl ih =>
    intro st hfix
    obtain ⟨idStr, osp⟩ := hd
    cases osp with
    | none => exact ih st hfix
    | some sp =>
      obtain ⟨bs, bm, pr⟩ := st
      by_cases h : score sp > bs
      · exfalso
        have h1 : (score sp) ≤ (bestLoop score mkP ((idStr, some sp) :: tl) (bs, bm, pr)).1 := by
          simp only [bestLoop, if_pos h]
          have := bestLoop_fst score mkP tl (score sp, idStr, some (mkP idStr))
          rw [this]
          exact le_foldl_max _ _
        rw [hfix] at h1
        exact absurd h1 (Nat.not_le_of_lt h)
      · have : bestLoop score mkP ((idStr, some sp) :: tl) (bs, bm, pr) =
            bestLoop score mkP tl (bs, bm, pr) := by
          simp only [bestLoop, if_neg h]
        rw [this] at hfix ⊢
        exact ih _ hfix

theorem bestLoop_improved (score : ClientHelloSpec → Nat) (mkP : GoStr → GaseousClientHelloParams) :
    ∀ (db : List (GoStr × Option ClientHelloSpec)) (bs : Nat) (bm : GoStr)
      (pr : Option GaseousClientHelloParams),
    bs < (bestLoop score mkP db (bs, bm, pr)).1 →
    ∃ idStr sp, (idStr, some sp) ∈ db ∧
      bestLoop score mkP db (bs, bm, pr) = (score sp, idStr, some (mkP idStr)) := by
  intro db
  induction db with
  | nil => intro bs bm pr h; exact absurd h (lt_irrefl _)
  | cons hd tl ih =>
    intro bs bm pr h
    obtain ⟨idStr, osp⟩ := hd
    cases osp with
    | none =>
      have h' : bs < (bestLoop score mkP tl (bs, bm, pr)).1 := by
        simpa [bestLoop] using h
      obtain ⟨i, sp, hmem, heq⟩ := ih bs bm pr h'
      exact ⟨i, sp, List.mem_cons_of_mem _ hmem, by simpa [bestLoop] using heq⟩
    | some sp =>
      by_cases hgt : score sp > bs
      · have hred : bestLoop score mkP ((idStr, some sp) :: tl) (bs, bm, pr) =
            bestLoop score mkP tl (score sp, idStr, some (mkP idStr)) := by
          simp only [bestLoop, if_pos hgt]
        by_cases h2 : score sp < (bestLoop score mkP tl (score sp, idStr, some (mkP idStr))).1
        · obtain ⟨i, sp', hmem, heq⟩ := ih (score sp) idStr (some (mkP idStr)) h2
          exact ⟨i, sp', List.mem_cons_of_mem _ hmem, by rw [hred]; exact heq⟩
        · have hle : (bestLoop score mkP tl (score sp, idStr, some (mkP idStr))).1 = score sp := by
            have hge : score sp ≤ (bestLoop score mkP tl (score sp, idStr, some (mkP idStr))).1 := by
              rw [bestLoop_fst]
              exact le_foldl_max _ _
            omega
          have := bestLoop_fix score mkP tl (score sp, idStr, some (mkP idStr)) hle
          exact ⟨idStr, sp, List.mem_cons_self _ _, by rw [hred, this]⟩
      · have hred : bestLoop score mkP ((idStr, some sp) :: tl) (bs, bm, pr) =
            bestLoop score mkP tl (bs, bm, pr) := by
          simp only [bestLoop, if_neg hgt]
        rw [hred] at h ⊢
        obtain ⟨i, sp', hmem, heq⟩ := ih bs bm pr h
        exact ⟨i, sp', List.mem_cons_of_mem _ hmem, heq⟩

theorem acceptBest_spec (score : ClientHelloSpec → Nat) (mkP : GoStr → GaseousClientHelloParams)
    (db : List (GoStr × Option ClientHelloSpec)) (thr : Nat) (hthr : 1 ≤ thr)
    (hids : ∀ e ∈ db, e.1 ≠ ([] : GoStr)) :
    ((if thr ≤ (bestLoop score mkP db (0, [], none)).1 ∧
        (bestLoop score mkP db (0, [], none)).2.1 ≠ []
      then (bestLoop score mkP db (0, [], none)).2.2.map
        (fun p => ((bestLoop score mkP db (0, [], none)).2.1, p))
      else none).isSome ↔ thr ≤ maxScore score db) ∧
    (∀ id p,
      (if thr ≤ (bestLoop score mkP db (0, [], none)).1 ∧
          (bestLoop score mkP db (0, [], none)).2.1 ≠ []
        then (bestLoop score mkP db (0, [], none)).2.2.map
          (fun p => ((bestLoop score mkP db (0, [], none)).2.1, p))
        else none) = some (id, p) →
      p = mkP id ∧ ∃ sp, (id, some sp) ∈ db ∧ score sp = maxScore score db) := by
  have hfst : (bestLoop score mkP db (0, [], none)).1 = maxScore score db := by
    rw [bestLoop_fst]; rfl
  constructor
  · constructor
    · intro hsome
      by_cases hcond : thr ≤ (bestLoop score mkP db (0, [], none)).1 ∧
          (bestLoop score mkP db (0, [], none)).2.1 ≠ []
      · exact hfst ▸ hcond.1
      · rw [if_neg hcond] at hsome
        simp at hsome
    · intro hM
      have h0 : (0:Nat) < (bestLoop score mkP db (0, [], none)).1 := by omega
      obtain ⟨i, sp, hmem, heq⟩ := bestLoop_improved score mkP db 0 [] none h0
      have hi : i ≠ ([] : GoStr) := hids (i, some sp) hmem
      rw [heq]
      simp only [Option.isSome_map]
      rw [if_pos]
      · rfl
      · refine ⟨?_, by simpa using hi⟩
        have : (bestLoop score mkP db (0, [], none)).1 = score sp := by rw [heq]
        omega
  · intro id p hsome
    by_cases hcond : thr ≤ (bestLoop score mkP db (0, [], none)).1 ∧
        (bestLoop score mkP db (0, [], none)).2.1 ≠ []
    · have h0 : (0:Nat) < (bestLoop score mkP db (0, [], none)).1 := by
        have := hcond.1; omega
      obtain ⟨i, sp, hmem, heq⟩ := bestLoop_improved score mkP db 0 [] none h0
      rw [if_pos hcond, heq] at hsome
      simp only [Option.map_some] at hsome
      obtain ⟨h1, h2⟩ : i = id ∧ mkP i = p := by
        constructor
        · exact congrArg (·.1) (Option.some.inj hsome)
        · exact congrArg (·.2) (Option.some.inj hsome)
      subst h1
      refine ⟨h2.symm, sp, hmem, ?_⟩
      rw [← hfst, heq]
    · rw [if_neg hcond] at hsome
      exact absurd hsome (by simp)

/-- C6: acceptance policy of both fingerprint matchers.  Each computes
a score for every database entry whose spec conversion succeeded,
tracks the highest-scoring one, and returns a match exactly when that
best score reaches the fixed threshold (50 in `g_client.go`, 10 in
`part_004`); on acceptance the returned parameters carry the spec id,
sni, alpn, random and session id, and the matched spec attains the
database's maximal score.  (The hypothesis that the database's id
strings are non-empty reflects `id.Str()` of the uTLS ids.) -/
theorem c6_matcher_threshold (ext : ExtFuns)
    (hids : ∀ e ∈ ext.allIDs, e.1 ≠ ([] : GoStr)) :
    (∀ (bytes : Bytes) (sni : GoStr) (alpn : List GoStr) (msg : ChMsg),
      ext.unmarshalCH bytes = some msg →
      ((GClient.matchUTLSClientHello ext bytes sni alpn).isSome ↔
        50 ≤ maxScore (fun sp => compareClientHelloSpec msg sp sni alpn) ext.allIDs) ∧
      (∀ id p, GClient.matchUTLSClientHello ext bytes sni alpn = some (id, p) →
        p = { SpecType := id, SNI := sni, ALPN := alpn, Random := msg.Random,
              SessionID := msg.SessionId, Other := [] } ∧
        ∃ sp, (id, some sp) ∈ ext.allIDs ∧
          compareClientHelloSpec msg sp sni alpn =
            maxScore (fun sp => compareClientHelloSpec msg sp sni alpn) ext.allIDs)) ∧
    (∀ (bytes : Bytes) (parsed : ParsedClientHello),
      parseClientHello bytes = .ok parsed →
      ((P4.matchUTLSClientHello ext bytes).isSome ↔
        10 ≤ maxScore (P4.p4Score parsed) ext.allIDs) ∧
      (∀ id p, P4.matchUTLSClientHello ext bytes = some (id, p) →
        p = { SpecType := id, SNI := parsed.SNI, ALPN := parsed.ALPN,
              Random := parsed.Random, SessionID := parsed.SessionID, Other := [] } ∧
        ∃ sp, (id, some sp) ∈ ext.allIDs ∧
          P4.p4Score parsed sp = maxScore (P4.p4Score parsed) ext.allIDs)) := by
  constructor
  · intro bytes sni alpn msg hmsg
    simp only [GClient.matchUTLSClientHello, hmsg]
    have hg := acceptBest_spec (fun sp => compareClientHelloSpec msg sp sni alpn)
      (fun idStr => { SpecType := idStr, SNI := sni, ALPN := alpn,
                      Random := msg.Random, SessionID := msg.SessionId, Other := [] })
      ext.allIDs 50 (by omega) hids
    exact ⟨hg.1, fun id p h => hg.2 id p h⟩
  · intro bytes parsed hparsed
    simp only [P4.matchUTLSClientHello, hparsed]
    have hg := acceptBest_spec (P4.p4Score parsed)
      (fun idStr => { SpecType := idStr, SNI := parsed.SNI, ALPN := parsed.ALPN,
                      Random := parsed.Random, SessionID := parsed.SessionID, Other := [] })
      ext.allIDs 10 (by omega) hids
    exact ⟨hg.1, fun id p h => hg.2 id p h⟩

/-- A fingerprint-database environment for concrete matcher runs: the
unmarshaller always yields `msg0` and the database holds the single
spec `spec0` under id `"A"`. -/
def msg0 : ChMsg :=
  { CipherSuites := [10], CompressionMethods := [0],
    Random := List.replicate 32 1, SessionId := [], extTypes := [] }

/-- A one-entry fingerprint spec used by `matchExt`. -/
def spec0 : ClientHelloSpec :=
  { CipherSuites := [47], CompressionMethods := [0], Extensions := [] }

/-- `trivialExt` with a working unmarshaller and a one-spec database. -/
def matchExt : ExtFuns := { trivialExt with
  unmarshalCH := fun _ => some msg0,
  allIDs := [([65], some spec0)] }

/-- A minimal well-formed ClientHello (no record layer, one cipher
suite 0x002F, one compression method, no extensions). -/
def ch0 : Bytes := [1, 0, 0, 41, 3, 3] ++ List.replicate 32 7 ++ [0, 0, 2, 0, 47, 1, 0]

/-- The parse of `ch0`. -/
def parsed0 : ParsedClientHello :=
  { Version := 771, Random := List.replicate 32 7, SessionID := [],
    CipherSuites := [47], CompressionMethods := [0], SNI := [], ALPN := [],
    Extensions := [] }

/-- C6 witness: the threshold characterization applied to a concrete
unmarshalled hello (g_client matcher) and a concrete parsed hello
(part_004 matcher) over the one-spec database. -/
theorem c6_matcher_threshold_witness :
    ((GClient.matchUTLSClientHello matchExt [] [] []).isSome ↔
      50 ≤ maxScore (fun sp => compareClientHelloSpec msg0 sp [] []) matchExt.allIDs) ∧
    ((P4.matchUTLSClientHello matchExt ch0).isSome ↔
      10 ≤ maxScore (P4.p4Score parsed0) matchExt.allIDs) :=
  ⟨((c6_matcher_threshold matchExt (by decide)).1 [] [] [] msg0 rfl).1,
   ((c6_matcher_threshold matchExt (by decide)).2 ch0 parsed0 (by decide)).1⟩

theorem gsliceFrom_ok (s : Bytes) (a : Nat) (h : a ≤ s.length) :
    gsliceFrom s a = .ok (s.drop a) := by
  simp [gsliceFrom, h]

theorem gslice_ok (s : Bytes) (a b : Nat) (h1 : a ≤ b) (h2 : b ≤ s.length) :
    gslice s a b = .ok ((s.drop a).take (b - a)) := by
  simp [gslice, h1, h2]

theorem idx_ok (s : Bytes) (i : Nat) (h : i < s.length) :
    ∃ v, idx s i = .ok v := by
  unfold idx
  cases hg : s.get? i with
  | none => exact absurd (List.get?_eq_none.mp hg) (by omega)
  | some v => exact ⟨v, rfl⟩

theorem liftE_noOob {α : Type} (e : Except String α) : liftE e ≠ .error .oob := by
  cases e <;> simp

theorem noOob_bind {α β : Type} {e : Except GErr α} {f : α → Except GErr β}
    (he : e ≠ .error .oob) (hf : ∀ a, e = .ok a → f a ≠ .error .oob) :
    (e >>= f) ≠ .error .oob := by
  cases e with
  | ok a => simpa using hf a rfl
  | error err => simpa using he

theorem decompressLZ4Block_noOob (ext : ExtFuns) (data : Bytes) :
    decompressLZ4Block ext data ≠ .error .oob := by
  rcases data with _ | ⟨b0, _ | ⟨b1, _ | ⟨b2, _ | ⟨b3, rest⟩⟩⟩⟩ <;>
    first
      | exact liftE_noOob _
      | simp [decompressLZ4Block]

theorem gaseousDecompressData_noOob (ext : ExtFuns) (data : Bytes) (algo : Nat) :
    gaseousDecompressData ext data algo ≠ .error .oob := by
  match algo with
  | 0 => simp [gaseousDecompressData]
  | 1 => exact liftE_noOob _
  | 2 => exact liftE_noOob _
  | 3 => exact liftE_noOob _
  | 4 => exact liftE_noOob _
  | 5 => exact liftE_noOob _
  | 6 => exact liftE_noOob _
  | 7 => exact decompressLZ4Block_noOob ext data
  | n + 8 => simp [gaseousDecompressData]

theorem parseSNIList_noOob (data : Bytes) (listLen : Nat) :
    ∀ (fuel i : Nat), data.length + 1 ≤ fuel + i →
    parseSNIList data listLen i fuel ≠ .error .oob := by
  intro fuel
  induction fuel with
  | zero =>
    intro i hinv
    rw [parseSNIList]
    split
    · next hguard => omega
    · simp
  | succ fuel ih =>
    intro i hinv
    rw [parseSNIList]
    split
    · next hguard =>
      obtain ⟨v0, hv0⟩ := idx_ok data i (by omega)
      obtain ⟨v1, hv1⟩ := idx_ok data (i + 1) (by omega)
      obtain ⟨v2, hv2⟩ := idx_ok data (i + 2) (by omega)
      rw [hv0, hv1, hv2]
      simp only [except_pure_def, except_bind_ok]
      split
      · next hname =>
        rw [gslice_ok data (i + 3) (i + 3 + be16 v1 v2) (by omega) (by omega)]
        simp
      · exact ih (i + 3 + be16 v1 v2) (by omega)
    · simp

theorem parseSNI_noOob (data : Bytes) : parseSNI data ≠ .error .oob := by
  rw [parseSNI]
  split
  · simp
  · next hlen =>
    obtain ⟨v0, hv0⟩ := idx_ok data 0 (by omega)
    obtain ⟨v1, hv1⟩ := idx_ok data 1 (by omega)
    rw [hv0, hv1]
    simp only [except_pure_def, except_bind_ok]
    exact parseSNIList_noOob data (be16 v0 v1) (data.length + 1) 2 (by omega)

theorem parseALPNList_noOob (data : Bytes) (alpnLen : Nat) :
    ∀ (fuel li : Nat) (acc : List GoStr), data.length + 1 ≤ fuel + li →
    parseALPNList data alpnLen li fuel acc ≠ .error .oob := by
  intro fuel
  induction fuel with
  | zero =>
    intro li acc hinv
    rw [parseALPNList]
    split
    · next hguard => omega
    · simp
  | succ fuel ih =>
    intro li acc hinv
    rw [parseALPNList]
    split
    · next hguard =>
      split
      · simp
      · obtain ⟨l, hl⟩ := idx_ok data li (by omega)
        rw [hl]
        simp only [except_pure_def, except_bind_ok]
        split
        · simp
        · next hfit =>
          rw [gslice_ok data (li + 1) (li + 1 + l) (by omega) (by omega)]
          simp only [except_pure_def, except_bind_ok]
          exact ih (li + 1 + l) (acc ++ [(data.drop (li + 1)).take (li + 1 + l - (li + 1))])
            (by omega)
    · simp

theorem parseALPN_noOob (data : Bytes) : parseALPN data ≠ .error .oob := by
  rw [parseALPN]
  split
  · simp
  · next hlen =>
    obtain ⟨v0, hv0⟩ := idx_ok data 0 (by omega)
    obtain ⟨v1, hv1⟩ := idx_ok data 1 (by omega)
    rw [hv0, hv1]
    simp only [except_pure_def, except_bind_ok]
    exact parseALPNList_noOob data (be16 v0 v1) (data.length + 1) 2 [] (by omega)

theorem parseExtLoop_noOob (exts : Bytes) :
    ∀ (fuel ei : Nat) (out : ParsedClientHello), exts.length + 1 ≤ fuel + ei →
    parseExtLoop exts ei fuel out ≠ .error .oob := by
  intro fuel
  induction fuel with
  | zero =>
    intro ei out hinv
    rw [parseExtLoop]
    split
    · next hguard => omega
    · simp
  | succ fuel ih =>
    intro ei out hinv
    rw [parseExtLoop]
    split
    · next hguard =>
      obtain ⟨t1, ht1⟩ := idx_ok exts ei (by omega)
      obtain ⟨t2, ht2⟩ := idx_ok exts (ei + 1) (by omega)
      obtain ⟨l1, hl1⟩ := idx_ok exts (ei + 2) (by omega)
      obtain ⟨l2, hl2⟩ := idx_ok exts (ei + 3) (by omega)
      rw [ht1, ht2, hl1, hl2]
      simp only [except_pure_def, except_bind_ok]
      split
      · simp
      · next hfit =>
        rw [gslice_ok exts (ei + 4) (ei + 4 + be16 l1 l2) (by omega) (by omega)]
        simp only [except_pure_def, except_bind_ok]
        apply noOob_bind
        · split
          · apply noOob_bind (parseSNI_noOob _)
            intro a _
            cases a <;> simp
          · simp
        · intro out2 _
          apply noOob_bind
          · split
            · apply noOob_bind (parseALPN_noOob _)
              intro a _
              simp
            · simp
          · intro out3 _
            exact ih (ei + 4 + be16 l1 l2) out3 (by omega)
    · simp

theorem idx_noOob (s : Bytes) (i : Nat) (h : i < s.length) : idx s i ≠ .error .oob := by
  obtain ⟨v, hv⟩ := idx_ok s i h
  rw [hv]
  simp

theorem gsliceFrom_noOob (s : Bytes) (a : Nat) (h : a ≤ s.length) :
    gsliceFrom s a ≠ .error .oob := by
  rw [gsliceFrom_ok s a h]
  simp

theorem gslice_noOob (s : Bytes) (a b : Nat) (h1 : a ≤ b) (h2 : b ≤ s.length) :
    gslice s a b ≠ .error .oob := by
  rw [gslice_ok s a b h1 h2]
  simp

theorem gsliceFrom_ok_inv {s : Bytes} {a : Nat} {r : Bytes} (h : gsliceFrom s a = .ok r) :
    r.length = s.length - a := by
  unfold gsliceFrom at h
  split at h
  · cases h
    simp
  · cases h

theorem gslice_ok_inv {s : Bytes} {a b : Nat} {r : Bytes} (h : gslice s a b = .ok r) :
    r.length = b - a ∧ a ≤ b ∧ b ≤ s.length := by
  unfold gslice at h
  split at h
  · next hc =>
    cases h
    refine ⟨?_, hc.1, hc.2⟩
    simp
    omega
  · cases h


theorem noOob_errIf_bind {β : Type} {c : Prop} [Decidable c] {e : GErr}
    {f : PUnit → Except GErr β} (he : e ≠ .oob)
    (hf : ¬c → f PUnit.unit ≠ .error .oob) :
    (errIf c e >>= f) ≠ .error .oob := by
  unfold errIf
  split
  · simp only [except_bind_error]
    intro hcon
    exact he (Except.error.inj hcon)
  · next h => simpa using hf h

theorem parseClientHello_noOob (data : Bytes) : parseClientHello data ≠ .error .oob := by
  rw [parseClientHello]
  apply noOob_errIf_bind (by simp)
  intro hlen
  apply noOob_bind (idx_noOob data 0 (by omega))
  intro b0 hb0
  apply noOob_bind
  · split
    · next hrec =>
      apply noOob_bind (idx_noOob data 1 (by omega))
      intro b1 hb1
      apply noOob_bind (idx_noOob data 2 (by omega))
      intro b2 hb2
      split
      · apply noOob_bind (idx_noOob data 3 (by omega))
        intro r1 hr1
        apply noOob_bind (idx_noOob data 4 (by omega))
        intro r2 hr2
        apply noOob_errIf_bind (by simp)
        intro hrl
        simp
      · simp
    · simp
  · intro offset hoff
    have hofle : offset ≤ data.length := by
      split at hoff
      · next hc =>
        obtain ⟨b1, hb1⟩ := idx_ok data 1 (by omega)
        obtain ⟨b2, hb2⟩ := idx_ok data 2 (by omega)
        rw [hb1, hb2] at hoff
        simp only [except_pure_def, except_bind_ok] at hoff
        split at hoff
        · obtain ⟨r1, hr1⟩ := idx_ok data 3 (by omega)
          obtain ⟨r2, hr2⟩ := idx_ok data 4 (by omega)
          rw [hr1, hr2] at hoff
          simp only [except_pure_def, except_bind_ok] at hoff
          unfold errIf at hoff
          split at hoff
          · exact absurd hoff (by simp)
          · simp only [except_pure_def, except_bind_ok, Except.ok.injEq] at hoff
            omega
        · simp only [except_pure_def, Except.ok.injEq] at hoff
          omega
      · simp only [except_pure_def, Except.ok.injEq] at hoff
        omega
    apply noOob_bind (gsliceFrom_noOob data offset hofle)
    intro hs hhs
    have hhsl := gsliceFrom_ok_inv hhs
    clear hhs hoff
    apply noOob_errIf_bind (by simp)
    intro hhs4
    apply noOob_bind (idx_noOob hs 0 (by omega))
    intro h0 hh0
    apply noOob_errIf_bind (by simp)
    intro hty
    apply noOob_bind (idx_noOob hs 1 (by omega))
    intro h1 hh1
    apply noOob_bind (idx_noOob hs 2 (by omega))
    intro h2 hh2
    apply noOob_bind (idx_noOob hs 3 (by omega))
    intro h3 hh3
    apply noOob_errIf_bind (by simp)
    intro hblen
    apply noOob_bind (gslice_noOob hs 4 (4 + (h1 * 65536 + h2 * 256 + h3))
      (by omega) (by omega))
    intro body hbody
    obtain ⟨hbl, -, -⟩ := gslice_ok_inv hbody
    clear hbody
    apply noOob_errIf_bind (by simp)
    intro hb2
    apply noOob_bind (idx_noOob body 0 (by omega))
    intro v0 hv0
    apply noOob_bind (idx_noOob body 1 (by omega))
    intro v1 hv1
    apply noOob_bind (gsliceFrom_noOob body 2 (by omega))
    intro s1 hs1
    have hs1l := gsliceFrom_ok_inv hs1
    clear hs1
    apply noOob_errIf_bind (by simp)
    intro hrand
    apply noOob_bind (gslice_noOob body 2 34 (by omega) (by omega))
    intro random hrnd
    clear hrnd
    apply noOob_bind (gsliceFrom_noOob body 34 (by omega))
    intro s2 hs2
    have hs2l := gsliceFrom_ok_inv hs2
    clear hs2
    apply noOob_errIf_bind (by simp)
    intro hsl1
    apply noOob_bind (idx_noOob body 34 (by omega))
    intro sidLen hsid
    clear hsid
    apply noOob_bind (gsliceFrom_noOob body 35 (by omega))
    intro s3 hs3
    have hs3l := gsliceFrom_ok_inv hs3
    clear hs3
    apply noOob_errIf_bind (by simp)
    intro hsl2
    apply noOob_bind (gslice_noOob body 35 (35 + sidLen) (by omega) (by omega))
    intro sessionId hses
    clear hses
    apply noOob_bind (gsliceFrom_noOob body (35 + sidLen) (by omega))
    intro s4 hs4
    have hs4l := gsliceFrom_ok_inv hs4
    clear hs4
    apply noOob_errIf_bind (by simp)
    intro hcs1
    apply noOob_bind (idx_noOob body (35 + sidLen) (by omega))
    intro c0 hc0
    clear hc0
    apply noOob_bind (idx_noOob body (35 + sidLen + 1) (by omega))
    intro c1 hc1
    clear hc1
    apply noOob_bind (gsliceFrom_noOob body (35 + sidLen + 2) (by omega))
    intro s5 hs5
    have hs5l := gsliceFrom_ok_inv hs5
    clear hs5
    apply noOob_errIf_bind (by simp)
    intro hcs2
    apply noOob_bind (gslice_noOob body (35 + sidLen + 2) (35 + sidLen + 2 + be16 c0 c1)
      (by omega) (by unfold be16 at *; omega))
    intro csBytes hcsb
    clear hcsb
    apply noOob_bind (gsliceFrom_noOob body (35 + sidLen + 2 + be16 c0 c1)
      (by unfold be16 at *; omega))
    intro s6 hs6
    have hs6l := gsliceFrom_ok_inv hs6
    clear hs6
    apply noOob_errIf_bind (by simp)
    intro hcm1
    apply noOob_bind (idx_noOob body (35 + sidLen + 2 + be16 c0 c1) (by omega))
    intro compLen hcm
    clear hcm
    apply noOob_bind (gsliceFrom_noOob body (35 + sidLen + 2 + be16 c0 c1 + 1) (by omega))
    intro s7 hs7
    have hs7l := gsliceFrom_ok_inv hs7
    clear hs7
    apply noOob_errIf_bind (by simp)
    intro hcm2
    apply noOob_bind (gslice_noOob body (35 + sidLen + 2 + be16 c0 c1 + 1)
      (35 + sidLen + 2 + be16 c0 c1 + 1 + compLen) (by omega) (by omega))
    intro comps hcomps
    clear hcomps
    unfold_let
    split
    · simp
    next hnoext =>
    apply noOob_bind (gsliceFrom_noOob body (35 + sidLen + 2 + be16 c0 c1 + 1 + compLen)
      (by omega))
    intro s8 hs8
    have hs8l := gsliceFrom_ok_inv hs8
    clear hs8
    apply noOob_errIf_bind (by simp)
    intro hex1
    apply noOob_bind (idx_noOob body (35 + sidLen + 2 + be16 c0 c1 + 1 + compLen) (by omega))
    intro e0 he0
    clear he0
    apply noOob_bind (idx_noOob body (35 + sidLen + 2 + be16 c0 c1 + 1 + compLen + 1)
      (by omega))
    intro e1 he1
    clear he1
    apply noOob_bind (gsliceFrom_noOob body (35 + sidLen + 2 + be16 c0 c1 + 1 + compLen + 2)
      (by omega))
    intro s9 hs9
    have hs9l := gsliceFrom_ok_inv hs9
    clear hs9
    apply noOob_errIf_bind (by simp)
    intro hex2
    apply noOob_bind (gslice_noOob body (35 + sidLen + 2 + be16 c0 c1 + 1 + compLen + 2)
      (35 + sidLen + 2 + be16 c0 c1 + 1 + compLen + 2 + be16 e0 e1)
      (by omega) (by unfold be16 at *; omega))
    intro exts hexts
    clear hexts
    exact parseExtLoop_noOob exts (exts.length + 1) 0 _ (by omega)

theorem gclient_unpack_noOob (ext : ExtFuns) (reg : Registry) (data₀ : Bytes) :
    GClient.UnpackClientHelloGaseous ext reg data₀ ≠ .error .oob := by
  rw [GClient.UnpackClientHelloGaseous]
  apply noOob_errIf_bind (by simp)
  intro hlen
  apply noOob_bind (gsliceFrom_noOob data₀ 1 (by omega))
  intro d hd
  have hdl := gsliceFrom_ok_inv hd
  clear hd
  apply noOob_bind (gslice_noOob d 0 2 (by omega) (by omega))
  intro magic hm
  clear hm
  apply noOob_bind (idx_noOob d 2 (by omega))
  intro ver h
  clear h
  apply noOob_bind (idx_noOob d 3 (by omega))
  intro algo h
  clear h
  apply noOob_bind (idx_noOob d 4 (by omega))
  intro helloType h
  clear h
  apply noOob_bind (idx_noOob d 5 (by omega))
  intro t1 h
  clear h
  apply noOob_bind (idx_noOob d 6 (by omega))
  intro t2 h
  clear h
  apply noOob_bind (idx_noOob d 7 (by omega))
  intro l1 h
  clear h
  apply noOob_bind (idx_noOob d 8 (by omega))
  intro l2 h
  clear h
  apply noOob_bind (idx_noOob d 9 (by omega))
  intro l3 h
  clear h
  apply noOob_bind (idx_noOob d 10 (by omega))
  intro l4 h
  clear h
  unfold_let
  apply noOob_errIf_bind (by simp)
  intro hmg
  apply noOob_errIf_bind (by simp)
  intro hv
  apply noOob_errIf_bind (by simp)
  intro ht
  apply noOob_errIf_bind (by simp)
  intro hfit
  apply noOob_bind (gslice_noOob d 11 (11 + be32 l1 l2 l3 l4) (by omega) (by omega))
  intro compressed hc
  clear hc
  split
  · apply noOob_bind (liftE_noOob _)
    intro plain _
    apply noOob_bind (liftE_noOob _)
    intro params _
    exact liftE_noOob _
  · apply noOob_bind
    · match algo with
      | 0 => simp
      | 1 => exact liftE_noOob _
      | 2 => exact liftE_noOob _
      | 3 => exact liftE_noOob _
      | 4 => exact liftE_noOob _
      | n + 5 => simp
    · intro plain _
      cases reg (be16 t1 t2) <;> simp

theorem p4_unpack_noOob (ext : ExtFuns) (reg : Registry) (data₀ : Bytes) :
    P4.UnpackClientHelloGaseous ext reg data₀ ≠ .error .oob := by
  rw [P4.UnpackClientHelloGaseous]
  apply noOob_errIf_bind (by simp)
  intro hlen
  apply noOob_bind (gsliceFrom_noOob data₀ 1 (by omega))
  intro d hd
  have hdl := gsliceFrom_ok_inv hd
  clear hd
  apply noOob_bind (gslice_noOob d 0 2 (by omega) (by omega))
  intro magic hm
  clear hm
  apply noOob_bind (idx_noOob d 2 (by omega))
  intro ver h
  clear h
  apply noOob_bind (idx_noOob d 3 (by omega))
  intro algo h
  clear h
  apply noOob_bind (idx_noOob d 4 (by omega))
  intro helloType h
  clear h
  apply noOob_bind (idx_noOob d 5 (by omega))
  intro t1 h
  clear h
  apply noOob_bind (idx_noOob d 6 (by omega))
  intro t2 h
  clear h
  apply noOob_bind (idx_noOob d 7 (by omega))
  intro l1 h
  clear h
  apply noOob_bind (idx_noOob d 8 (by omega))
  intro l2 h
  clear h
  apply noOob_bind (idx_noOob d 9 (by omega))
  intro l3 h
  clear h
  apply noOob_bind (idx_noOob d 10 (by omega))
  intro l4 h
  clear h
  unfold_let
  apply noOob_errIf_bind (by simp)
  intro hmg
  apply noOob_errIf_bind (by simp)
  intro hv
  apply noOob_errIf_bind (by simp)
  intro ht
  apply noOob_errIf_bind (by simp)
  intro hfit
  apply noOob_bind (gslice_noOob d 11 (11 + be32 l1 l2 l3 l4) (by omega) (by omega))
  intro compressed hc
  clear hc
  apply noOob_bind
  · match algo with
    | 0 => simp
    | 1 => exact liftE_noOob _
    | 2 => exact liftE_noOob _
    | 3 => exact liftE_noOob _
    | 4 => exact liftE_noOob _
    | 5 => exact liftE_noOob _
    | 6 => exact liftE_noOob _
    | 7 => exact decompressLZ4Block_noOob ext compressed
    | n + 8 => simp
  · intro plain _
    split
    · apply noOob_bind (liftE_noOob _)
      intro params _
      exact liftE_noOob _
    · cases reg (be16 t1 t2) <;> simp

theorem server_unpack_noOob (ext : ExtFuns) (reg : Registry) (data : Bytes) :
    UnpackServerHelloGaseous ext reg data ≠ .error .oob := by
  rw [UnpackServerHelloGaseous]
  apply noOob_errIf_bind (by simp)
  intro hlen
  apply noOob_bind (gslice_noOob data 0 2 (by omega) (by omega))
  intro magic hm
  clear hm
  apply noOob_bind (idx_noOob data 2 (by omega))
  intro ver h
  clear h
  apply noOob_bind (idx_noOob data 3 (by omega))
  intro algo h
  clear h
  apply noOob_bind (idx_noOob data 4 (by omega))
  intro helloType h
  clear h
  apply noOob_bind (idx_noOob data 5 (by omega))
  intro t1 h
  clear h
  apply noOob_bind (idx_noOob data 6 (by omega))
  intro t2 h
  clear h
  apply noOob_bind (idx_noOob data 7 (by omega))
  intro l1 h
  clear h
  apply noOob_bind (idx_noOob data 8 (by omega))
  intro l2 h
  clear h
  apply noOob_bind (idx_noOob data 9 (by omega))
  intro l3 h
  clear h
  apply noOob_bind (idx_noOob data 10 (by omega))
  intro l4 h
  clear h
  unfold_let
  apply noOob_errIf_bind (by simp)
  intro hmg
  apply noOob_errIf_bind (by simp)
  intro hv
  apply noOob_errIf_bind (by simp)
  intro ht
  cases reg (be16 t1 t2) with
  | none => simp
  | some tmpl =>
    apply noOob_errIf_bind (by simp)
    intro hfit
    apply noOob_bind (gslice_noOob data 11 (11 + be32 l1 l2 l3 l4) (by omega) (by omega))
    intro compressed hc
    clear hc
    apply noOob_bind (gaseousDecompressData_noOob ext compressed algo)
    intro plain _
    simp

/-- C5: total safety on adversarial input.  In the embedding every Go
slice expression goes through `idx`, `gslice` or `gsliceFrom`, which
produce the distinguished error `GErr.oob` exactly when the access
would be out of bounds (a runtime panic in Go).  For every input byte
string — and any behavior of the external codecs — the ClientHello
parser and all three unpack operations never reach such an access:
every length and offset computed from the input is bounds-checked
before the corresponding slice is taken, so each call returns a result
or an explicit error value. -/
theorem c5_total_safety (data data₀ : Bytes) (ext : ExtFuns) (reg : Registry) :
    parseClientHello data ≠ .error .oob ∧
    GClient.UnpackClientHelloGaseous ext reg data₀ ≠ .error .oob ∧
    P4.UnpackClientHelloGaseous ext reg data₀ ≠ .error .oob ∧
    UnpackServerHelloGaseous ext reg data₀ ≠ .error .oob :=
  ⟨parseClientHello_noOob data, gclient_unpack_noOob ext reg data₀,
   p4_unpack_noOob ext reg data₀, server_unpack_noOob ext reg data₀⟩
/-- Big-endian 24-bit write (the 3-byte handshake length). -/
def u24be (v : Nat) : Bytes := [v / 65536 % 256, v / 256 % 256, v % 256]

/-- The wire encoding of one extension record `(type, len, body)`. -/
def encodeExtRecord (r : Nat × Bytes) : Bytes :=
  u16be r.1 ++ u16be r.2.length ++ r.2

/-- The wire encoding of a sequence of extension records. -/
def encodeExtRecords (recs : List (Nat × Bytes)) : Bytes :=
  (recs.map encodeExtRecord).join

/-- The extension map obtained by Go-map insertion of each record. -/
def extMapOf (recs : List (Nat × Bytes)) : List (Nat × Bytes) :=
  recs.foldl (fun m r => mapSet m r.1 r.2) []

/-- A well-formed ClientHello handshake message built from components:
version bytes, 32-byte random, session id, cipher-suite bytes,
compression methods and the raw extensions block. -/
def mkClientHello (v0 v1 : Nat) (rnd sid csb comps exts : Bytes) : Bytes :=
  1 :: (u24be (([v0, v1] ++ rnd ++ [sid.length] ++ sid ++ u16be csb.length ++ csb ++
    [comps.length] ++ comps ++ u16be exts.length ++ exts).length) ++
    ([v0, v1] ++ rnd ++ [sid.length] ++ sid ++ u16be csb.length ++ csb ++
    [comps.length] ++ comps ++ u16be exts.length ++ exts))

theorem be16_u16be (v : Nat) (h : v < 65536) : be16 (v / 256 % 256) (v % 256) = v := by
  unfold be16
  omega

theorem idx_of_drop {s rest : Bytes} {a v : Nat} (h : s.drop a = v :: rest) :
    idx s a = .ok v := by
  unfold idx
  have hg : s.get? a = some v := by
    have := List.get?_drop s a 0
    rw [h] at this
    simpa using this.symm
  rw [hg]

theorem gslice_of_drop {s mid post : Bytes} {a : Nat} (ha : a ≤ s.length)
    (h : s.drop a = mid ++ post) : gslice s a (a + mid.length) = .ok mid := by
  have hlen : (s.drop a).length = s.length - a := by simp
  rw [h] at hlen
  simp only [List.length_append] at hlen
  rw [gslice_ok s a (a + mid.length) (by omega) (by omega)]
  rw [h, show a + mid.length - a = mid.length from by omega, List.take_left]

theorem parseSNIList_isOk (data : Bytes) (listLen : Nat) :
    ∀ (fuel i : Nat), data.length + 1 ≤ fuel + i →
    ∃ v, parseSNIList data listLen i fuel = .ok v := by
  intro fuel
  induction fuel with
  | zero =>
    intro i hinv
    rw [parseSNIList]
    split
    · next hguard => omega
    · exact ⟨none, rfl⟩
  | succ fuel ih =>
    intro i hinv
    rw [parseSNIList]
    split
    · next hguard =>
      obtain ⟨v0, hv0⟩ := idx_ok data i (by omega)
      obtain ⟨v1, hv1⟩ := idx_ok data (i + 1) (by omega)
      obtain ⟨v2, hv2⟩ := idx_ok data (i + 2) (by omega)
      rw [hv0, hv1, hv2]
      simp only [except_pure_def, except_bind_ok]
      split
      · next hname =>
        rw [gslice_ok data (i + 3) (i + 3 + be16 v1 v2) (by omega) (by omega)]
        exact ⟨some _, rfl⟩
      · exact ih (i + 3 + be16 v1 v2) (by omega)
    · exact ⟨none, rfl⟩

theorem parseSNI_isOk (data : Bytes) : ∃ v, parseSNI data = .ok v := by
  rw [parseSNI]
  split
  · exact ⟨none, rfl⟩
  · next hlen =>
    obtain ⟨v0, hv0⟩ := idx_ok data 0 (by omega)
    obtain ⟨v1, hv1⟩ := idx_ok data 1 (by omega)
    rw [hv0, hv1]
    simp only [except_pure_def, except_bind_ok]
    exact parseSNIList_isOk data (be16 v0 v1) (data.length + 1) 2 (by omega)

theorem parseALPNList_isOk (data : Bytes) (alpnLen : Nat) :
    ∀ (fuel li : Nat) (acc : List GoStr), data.length + 1 ≤ fuel + li →
    ∃ v, parseALPNList data alpnLen li fuel acc = .ok v := by
  intro fuel
  induction fuel with
  | zero =>
    intro li acc hinv
    rw [parseALPNList]
    split
    · next hguard => omega
    · exact ⟨acc, rfl⟩
  | succ fuel ih =>
    intro li acc hinv
    rw [parseALPNList]
    split
    · next hguard =>
      split
      · exact ⟨acc, rfl⟩
      · obtain ⟨l, hl⟩ := idx_ok data li (by omega)
        rw [hl]
        simp only [except_pure_def, except_bind_ok]
        split
        · exact ⟨acc, rfl⟩
        · next hfit =>
          rw [gslice_ok data (li + 1) (li + 1 + l) (by omega) (by omega)]
          simp only [except_pure_def, except_bind_ok]
          exact ih (li + 1 + l) _ (by omega)
    · exact ⟨acc, rfl⟩

theorem parseALPN_isOk (data : Bytes) : ∃ v, parseALPN data = .ok v := by
  rw [parseALPN]
  split
  · exact ⟨[], rfl⟩
  · next hlen =>
    obtain ⟨v0, hv0⟩ := idx_ok data 0 (by omega)
    obtain ⟨v1, hv1⟩ := idx_ok data 1 (by omega)
    rw [hv0, hv1]
    simp only [except_pure_def, except_bind_ok]
    exact parseALPNList_isOk data (be16 v0 v1) (data.length + 1) 2 [] (by omega)

theorem sniStep_fields {bodyB : Bytes} {extType : Nat} {out1 : ParsedClientHello} :
    ∃ out2, (if extType = 0 then setSNIIfFound bodyB out1 else Except.ok out1) =
      (.ok out2 : Except GErr ParsedClientHello) ∧
      out2.Extensions = out1.Extensions ∧ out2.Version = out1.Version ∧
      out2.Random = out1.Random ∧ out2.SessionID = out1.SessionID ∧
      out2.CipherSuites = out1.CipherSuites ∧
      out2.CompressionMethods = out1.CompressionMethods ∧
      out2.ALPN = out1.ALPN := by
  split
  · obtain ⟨v, hv⟩ := parseSNI_isOk bodyB
    unfold setSNIIfFound
    rw [hv]
    simp only [except_pure_def, except_bind_ok]
    cases v with
    | none => exact ⟨out1, rfl, rfl, rfl, rfl, rfl, rfl, rfl, rfl⟩
    | some sv =>
      exact ⟨{ out1 with SNI := sv }, rfl, rfl, rfl, rfl, rfl, rfl, rfl, rfl⟩
  · exact ⟨out1, rfl, rfl, rfl, rfl, rfl, rfl, rfl, rfl⟩

theorem alpnStep_fields {bodyB : Bytes} {extType : Nat} {out2 : ParsedClientHello} :
    ∃ out3, (if extType = 16 then appendALPN bodyB out2 else Except.ok out2) =
      (.ok out3 : Except GErr ParsedClientHello) ∧
      out3.Extensions = out2.Extensions ∧ out3.Version = out2.Version ∧
      out3.Random = out2.Random ∧ out3.SessionID = out2.SessionID ∧
      out3.CipherSuites = out2.CipherSuites ∧
      out3.CompressionMethods = out2.CompressionMethods := by
  split
  · obtain ⟨v, hv⟩ := parseALPN_isOk bodyB
    unfold appendALPN
    rw [hv]
    exact ⟨{ out2 with ALPN := out2.ALPN ++ v }, rfl, rfl, rfl, rfl, rfl, rfl, rfl⟩
  · exact ⟨out2, rfl, rfl, rfl, rfl, rfl, rfl, rfl⟩

theorem drop_succ_of_drop {s : Bytes} {rest : Bytes} {a v : Nat}
    (h : s.drop a = v :: rest) : s.drop (a + 1) = rest := by
  have h2 : s.drop (a + 1) = (s.drop a).drop 1 := by
    rw [List.drop_drop]
  rw [h2, h]
  rfl

theorem drop_append_of_drop {s l rest : Bytes} {a : Nat}
    (h : s.drop a = l ++ rest) : s.drop (a + l.length) = rest := by
  have h2 : s.drop (a + l.length) = (s.drop a).drop l.length := by
    rw [List.drop_drop]
  rw [h2, h, List.drop_left]


theorem encodeExtRecords_nil : encodeExtRecords [] = [] := rfl

theorem encodeExtRecords_cons (r : Nat × Bytes) (recs : List (Nat × Bytes)) :
    encodeExtRecords (r :: recs) = encodeExtRecord r ++ encodeExtRecords recs := by
  simp [encodeExtRecords]

theorem parseExtLoop_encoded (exts : Bytes) :
    ∀ (recs : List (Nat × Bytes)) (t1 t0 l1 l0 : Nat) (extra : Bytes)
      (out : ParsedClientHello) (ei fuel : Nat),
    (∀ r ∈ recs, r.1 < 65536 ∧ r.2.length < 65536) →
    extra.length < be16 l1 l0 →
    exts.drop ei = encodeExtRecords recs ++ (t1 :: t0 :: l1 :: l0 :: extra) →
    ei ≤ exts.length →
    exts.length + 1 ≤ fuel + ei →
    ∃ out', parseExtLoop exts ei fuel out = .ok out' ∧
      out'.Extensions = recs.foldl (fun m r => mapSet m r.1 r.2) out.Extensions ∧
      out'.Version = out.Version ∧ out'.Random = out.Random ∧
      out'.SessionID = out.SessionID ∧ out'.CipherSuites = out.CipherSuites ∧
      out'.CompressionMethods = out.CompressionMethods := by
  intro recs
  induction recs with
  | nil =>
    intro t1 t0 l1 l0 extra out ei fuel hwf hbad hdrop hei hfuel
    rw [encodeExtRecords_nil, List.nil_append] at hdrop
    have hc := congrArg List.length hdrop
    simp only [List.length_drop, List.length_cons] at hc
    obtain ⟨f, rfl⟩ : ∃ f, fuel = f + 1 := ⟨fuel - 1, by omega⟩
    rw [parseExtLoop, if_pos (by omega)]
    have hd1 := drop_succ_of_drop hdrop
    have hd2 := drop_succ_of_drop hd1
    have hd3 := drop_succ_of_drop hd2
    rw [idx_of_drop hdrop, idx_of_drop hd1, idx_of_drop hd2, idx_of_drop hd3]
    simp only [except_pure_def, except_bind_ok]
    unfold_let
    rw [if_pos (by omega)]
    exact ⟨out, rfl, by simp, rfl, rfl, rfl, rfl, rfl⟩
  | cons hd tl ih =>
    intro t1 t0 l1 l0 extra out ei fuel hwf hbad hdrop hei hfuel
    obtain ⟨t, b⟩ := hd
    obtain ⟨htlt, hblt⟩ := hwf (t, b) (List.mem_cons_self _ _)
    rw [encodeExtRecords_cons] at hdrop
    simp only [encodeExtRecord, u16be, List.cons_append, List.append_assoc,
      List.nil_append] at hdrop
    have hc := congrArg List.length hdrop
    simp only [List.length_drop, List.length_cons, List.length_append] at hc
    obtain ⟨f, rfl⟩ : ∃ f, fuel = f + 1 := ⟨fuel - 1, by omega⟩
    rw [parseExtLoop, if_pos (by omega)]
    have hd1 := drop_succ_of_drop hdrop
    have hd2 := drop_succ_of_drop hd1
    have hd3 := drop_succ_of_drop hd2
    have hd4 := drop_succ_of_drop hd3
    rw [idx_of_drop hdrop, idx_of_drop hd1, idx_of_drop hd2, idx_of_drop hd3]
    simp only [except_pure_def, except_bind_ok]
    unfold_let
    rw [be16_u16be t htlt, be16_u16be b.length hblt]
    rw [if_neg (by omega)]
    have hd4' : exts.drop (ei + 4) =
        b ++ (encodeExtRecords tl ++ (t1 :: t0 :: l1 :: l0 :: extra)) := by
      rw [hd4]
    rw [gslice_of_drop (by omega) hd4']
    simp only [except_pure_def, except_bind_ok]
    obtain ⟨out2, hout2, he2, hv2, hr2, hs2, hc2, hm2, ha2⟩ :=
      @sniStep_fields b t { out with Extensions := mapSet out.Extensions t b }
    rw [hout2]
    simp only [except_pure_def, except_bind_ok]
    obtain ⟨out3, hout3, he3, hv3, hr3, hs3, hc3, hm3⟩ :=
      @alpnStep_fields b t out2
    rw [hout3]
    simp only [except_pure_def, except_bind_ok]
    have hdrop2 : exts.drop (ei + 4 + b.length) =
        encodeExtRecords tl ++ (t1 :: t0 :: l1 :: l0 :: extra) :=
      drop_append_of_drop hd4'
    obtain ⟨out', hloop, hext, hv, hr, hs, hcc, hm⟩ :=
      ih t1 t0 l1 l0 extra out3 (ei + 4 + b.length) f
        (fun r hrm => hwf r (List.mem_cons_of_mem _ hrm)) hbad hdrop2
        (by omega) (by omega)
    refine ⟨out', hloop, ?_, by rw [hv, hv3, hv2], by rw [hr, hr3, hr2],
      by rw [hs, hs3, hs2], by rw [hcc, hc3, hc2], by rw [hm, hm3, hm2]⟩
    rw [hext, he3, he2]
    simp

theorem gsliceFrom_zero (s : Bytes) : gsliceFrom s 0 = .ok s := by
  simp [gsliceFrom]

theorem parseClientHello_structured
    (v0 v1 : Nat) (rnd sid csb comps exts body data : Bytes)
    (hbody : body = v0 :: v1 :: (rnd ++ (sid.length :: (sid ++
      (csb.length / 256 % 256 :: csb.length % 256 :: (csb ++
      (comps.length :: (comps ++
      (exts.length / 256 % 256 :: exts.length % 256 :: exts)))))))))
    (hdata : data = 1 :: body.length / 65536 % 256 :: body.length / 256 % 256 ::
      body.length % 256 :: body)
    (hrnd : rnd.length = 32) (hsid : sid.length ≤ 255)
    (hcomps : comps.length ≤ 255) (hcsb : csb.length < 65536)
    (heven : csb.length % 2 = 0) (hexts : exts.length < 65536) :
    parseClientHello data = parseExtLoop exts 0 (exts.length + 1)
      { Version := be16 v0 v1, Random := rnd, SessionID := sid,
        CipherSuites := toPairsBE csb, CompressionMethods := comps,
        SNI := [], ALPN := [], Extensions := [] } := by
  have hblen : body.length = 40 + sid.length + csb.length + comps.length + exts.length := by
    rw [hbody]
    simp [List.length_append, hrnd]
    omega
  have hdlen : data.length = 4 + body.length := by
    rw [hdata]
    simp only [List.length_cons]
    omega
  rw [parseClientHello]
  rw [errIf_neg (show ¬(data.length < 9) by omega)]
  simp only [except_pure_def, except_bind_ok]
  have hi0 : idx data 0 = .ok 1 := idx_of_drop (by rw [List.drop_zero, hdata])
  rw [hi0]
  simp only [except_pure_def, except_bind_ok]
  rw [if_neg (by simp)]
  simp only [except_pure_def, except_bind_ok]
  rw [gsliceFrom_zero]
  simp only [except_pure_def, except_bind_ok]
  rw [errIf_neg (by omega)]
  simp only [except_pure_def, except_bind_ok]
  rw [hi0]
  simp only [except_pure_def, except_bind_ok]
  rw [errIf_neg (by simp)]
  simp only [except_pure_def, except_bind_ok]
  have hi1 : idx data 1 = .ok (body.length / 65536 % 256) :=
    idx_of_drop (s := data) (a := 1) (by rw [hdata]; rfl)
  have hi2 : idx data 2 = .ok (body.length / 256 % 256) :=
    idx_of_drop (s := data) (a := 2) (by rw [hdata]; rfl)
  have hi3 : idx data 3 = .ok (body.length % 256) :=
    idx_of_drop (s := data) (a := 3) (by rw [hdata]; rfl)
  rw [hi1, hi2, hi3]
  simp only [except_pure_def, except_bind_ok]
  have hsl : body.length / 65536 % 256 * 65536 + body.length / 256 % 256 * 256 +
      body.length % 256 = body.length := by
    have hlt : body.length < 16777216 := by omega
    omega
  rw [hsl]
  rw [errIf_neg (by omega)]
  simp only [except_pure_def, except_bind_ok]
  have hslice : gslice data 4 (4 + body.length) = .ok body := by
    have h4 : data.drop 4 = body ++ [] := by
      rw [hdata, List.append_nil]
      rfl
    simpa using gslice_of_drop (by omega) h4
  rw [hslice]
  simp only [except_pure_def, except_bind_ok]
  rw [errIf_neg (by omega)]
  simp only [except_pure_def, except_bind_ok]
  have hv0 : idx body 0 = .ok v0 := idx_of_drop (by rw [List.drop_zero, hbody])
  have hv1 : idx body 1 = .ok v1 := idx_of_drop (s := body) (a := 1) (by rw [hbody]; rfl)
  rw [hv0, hv1]
  simp only [except_pure_def, except_bind_ok]
  rw [gsliceFrom_ok body 2 (by omega)]
  simp only [except_pure_def, except_bind_ok]
  have hd2 : body.drop 2 = rnd ++ (sid.length :: (sid ++
      (csb.length / 256 % 256 :: csb.length % 256 :: (csb ++
      (comps.length :: (comps ++
      (exts.length / 256 % 256 :: exts.length % 256 :: exts))))))) := by
    rw [hbody]
    rfl
  rw [errIf_neg (by rw [hd2]; simp [List.length_append, hrnd])]
  simp only [except_pure_def, except_bind_ok]
  have hrndslice : gslice body 2 34 = .ok rnd := by
    have := gslice_of_drop (show (2:Nat) ≤ body.length by omega) hd2
    rw [hrnd] at this
    simpa using this
  rw [hrndslice]
  simp only [except_pure_def, except_bind_ok]
  rw [gsliceFrom_ok body 34 (by omega)]
  simp only [except_pure_def, except_bind_ok]
  have hd34 : body.drop 34 = sid.length :: (sid ++
      (csb.length / 256 % 256 :: csb.length % 256 :: (csb ++
      (comps.length :: (comps ++
      (exts.length / 256 % 256 :: exts.length % 256 :: exts)))))) := by
    have := drop_append_of_drop hd2
    rw [hrnd] at this
    simpa using this
  rw [errIf_neg (by rw [hd34]; simp)]
  simp only [except_pure_def, except_bind_ok]
  rw [idx_of_drop hd34]
  simp only [except_pure_def, except_bind_ok]
  rw [gsliceFrom_ok body 35 (by omega)]
  simp only [except_pure_def, except_bind_ok]
  have hd35 : body.drop 35 = sid ++
      (csb.length / 256 % 256 :: csb.length % 256 :: (csb ++
      (comps.length :: (comps ++
      (exts.length / 256 % 256 :: exts.length % 256 :: exts))))) :=
    drop_succ_of_drop hd34
  rw [errIf_neg (by rw [hd35]; simp [List.length_append])]
  simp only [except_pure_def, except_bind_ok]
  rw [gslice_of_drop (show (35:Nat) ≤ body.length by omega) hd35]
  simp only [except_pure_def, except_bind_ok]
  rw [gsliceFrom_ok body (35 + sid.length) (by omega)]
  simp only [except_pure_def, except_bind_ok]
  have hdcs : body.drop (35 + sid.length) =
      csb.length / 256 % 256 :: csb.length % 256 :: (csb ++
      (comps.length :: (comps ++
      (exts.length / 256 % 256 :: exts.length % 256 :: exts)))) :=
    drop_append_of_drop hd35
  rw [errIf_neg (by rw [hdcs]; simp)]
  simp only [except_pure_def, except_bind_ok]
  rw [idx_of_drop hdcs, idx_of_drop (drop_succ_of_drop hdcs)]
  simp only [except_pure_def, except_bind_ok]
  rw [be16_u16be csb.length hcsb]
  rw [gsliceFrom_ok body (35 + sid.length + 2) (by omega)]
  simp only [except_pure_def, except_bind_ok]
  have hdcs2 : body.drop (35 + sid.length + 2) = csb ++
      (comps.length :: (comps ++
      (exts.length / 256 % 256 :: exts.length % 256 :: exts))) := by
    have d1 := drop_succ_of_drop hdcs
    have d2 := drop_succ_of_drop d1
    simpa using d2
  rw [errIf_neg (by
    rw [hdcs2]
    simp [List.length_append, heven])]
  simp only [except_pure_def, except_bind_ok]
  rw [gslice_of_drop (by omega) hdcs2]
  simp only [except_pure_def, except_bind_ok]
  rw [gsliceFrom_ok body (35 + sid.length + 2 + csb.length) (by omega)]
  simp only [except_pure_def, except_bind_ok]
  have hdcm : body.drop (35 + sid.length + 2 + csb.length) =
      comps.length :: (comps ++
      (exts.length / 256 % 256 :: exts.length % 256 :: exts)) :=
    drop_append_of_drop hdcs2
  rw [errIf_neg (by rw [hdcm]; simp)]
  simp only [except_pure_def, except_bind_ok]
  rw [idx_of_drop hdcm]
  simp only [except_pure_def, except_bind_ok]
  rw [gsliceFrom_ok body (35 + sid.length + 2 + csb.length + 1) (by omega)]
  simp only [except_pure_def, except_bind_ok]
  have hdcm2 : body.drop (35 + sid.length + 2 + csb.length + 1) = comps ++
      (exts.length / 256 % 256 :: exts.length % 256 :: exts) :=
    drop_succ_of_drop hdcm
  rw [errIf_neg (by rw [hdcm2]; simp [List.length_append])]
  simp only [except_pure_def, except_bind_ok]
  rw [gslice_of_drop (by omega) hdcm2]
  simp only [except_pure_def, except_bind_ok]
  rw [if_neg (by omega)]
  rw [gsliceFrom_ok body (35 + sid.length + 2 + csb.length + 1 + comps.length) (by omega)]
  simp only [except_pure_def, except_bind_ok]
  have hdex : body.drop (35 + sid.length + 2 + csb.length + 1 + comps.length) =
      exts.length / 256 % 256 :: exts.length % 256 :: exts :=
    drop_append_of_drop hdcm2
  rw [errIf_neg (by rw [hdex]; simp)]
  simp only [except_pure_def, except_bind_ok]
  rw [idx_of_drop hdex, idx_of_drop (drop_succ_of_drop hdex)]
  simp only [except_pure_def, except_bind_ok]
  rw [be16_u16be exts.length hexts]
  rw [gsliceFrom_ok body (35 + sid.length + 2 + csb.length + 1 + comps.length + 2) (by omega)]
  simp only [except_pure_def, except_bind_ok]
  have hdex2 : body.drop (35 + sid.length + 2 + csb.length + 1 + comps.length + 2) = exts := by
    have d1 := drop_succ_of_drop hdex
    have d2 := drop_succ_of_drop d1
    simpa using d2
  rw [errIf_neg (by rw [hdex2]; simp)]
  simp only [except_pure_def, except_bind_ok]
  have hexslice : gslice body (35 + sid.length + 2 + csb.length + 1 + comps.length + 2)
      (35 + sid.length + 2 + csb.length + 1 + comps.length + 2 + exts.length) = .ok exts := by
    have h9 : body.drop (35 + sid.length + 2 + csb.length + 1 + comps.length + 2) =
        exts ++ [] := by rw [hdex2, List.append_nil]
    simpa using gslice_of_drop (by omega) h9
  rw [hexslice]
  simp only [except_pure_def, except_bind_ok]

/-- C9: partial extension lists are tolerated — for every ClientHello whose
extensions block consists of well-formed encoded extension records followed by a
record header whose declared length overruns the block, `parseClientHello`
succeeds, its `Extensions` map holds exactly the records decoded before the
overrunning one, and all other parsed fields are intact. -/
theorem c9_partial_extensions
    (v0 v1 : Nat) (rnd sid csb comps : Bytes) (recs : List (Nat × Bytes))
    (t1 t0 l1 l0 : Nat) (extra : Bytes)
    (hrnd : rnd.length = 32) (hsid : sid.length ≤ 255)
    (hcomps : comps.length ≤ 255) (hcsb : csb.length < 65536)
    (heven : csb.length % 2 = 0)
    (hrecs : ∀ r ∈ recs, r.1 < 65536 ∧ r.2.length < 65536)
    (hover : extra.length < be16 l1 l0)
    (hexts : (encodeExtRecords recs ++ (t1 :: t0 :: l1 :: l0 :: extra)).length < 65536) :
    ∃ h, parseClientHello (mkClientHello v0 v1 rnd sid csb comps
        (encodeExtRecords recs ++ (t1 :: t0 :: l1 :: l0 :: extra))) = .ok h ∧
      h.Extensions = extMapOf recs ∧
      h.Version = be16 v0 v1 ∧ h.Random = rnd ∧ h.SessionID = sid ∧
      h.CipherSuites = toPairsBE csb ∧ h.CompressionMethods = comps := by
  obtain ⟨out', hloop, hext, hver, hrand, hsid2, hcs, hcomp⟩ :=
    parseExtLoop_encoded (encodeExtRecords recs ++ (t1 :: t0 :: l1 :: l0 :: extra))
      recs t1 t0 l1 l0 extra
      { Version := be16 v0 v1, Random := rnd, SessionID := sid,
        CipherSuites := toPairsBE csb, CompressionMethods := comps,
        SNI := [], ALPN := [], Extensions := [] }
      0 ((encodeExtRecords recs ++ (t1 :: t0 :: l1 :: l0 :: extra)).length + 1)
      hrecs hover (by rw [List.drop_zero]) (by omega) (by omega)
  refine ⟨out', ?_, ?_, ?_, ?_, ?_, ?_, ?_⟩
  · rw [parseClientHello_structured v0 v1 rnd sid csb comps
      (encodeExtRecords recs ++ (t1 :: t0 :: l1 :: l0 :: extra)) _
      (mkClientHello v0 v1 rnd sid csb comps
        (encodeExtRecords recs ++ (t1 :: t0 :: l1 :: l0 :: extra)))
      rfl (by simp only [mkClientHello, u24be, u16be, List.cons_append, List.nil_append,
        List.append_assoc])
      hrnd hsid hcomps hcsb heven hexts]
    exact hloop
  · rw [hext]
    rfl
  · rw [hver]
  · rw [hrand]
  · rw [hsid2]
  · rw [hcs]
  · rw [hcomp]

theorem c9_partial_extensions_witness :
    ∃ h, parseClientHello (mkClientHello 3 3 (List.replicate 32 7) [] [0, 47] [0]
        (encodeExtRecords [(10, [42])] ++ (0 :: 11 :: 0 :: 5 :: []))) = .ok h ∧
      h.Extensions = extMapOf [(10, [42])] ∧
      h.Version = be16 3 3 ∧ h.Random = List.replicate 32 7 ∧ h.SessionID = [] ∧
      h.CipherSuites = toPairsBE [0, 47] ∧ h.CompressionMethods = [0] :=
  c9_partial_extensions 3 3 (List.replicate 32 7) [] [0, 47] [0] [(10, [42])] 0 11 0 5 []
    (by decide) (by decide) (by decide) (by decide) (by decide) (by decide)
    (by decide) (by decide)
